import Mathlib

/-!
Verification of the TrendRadar analytics/search core
(`src/mcp_server/tools/analytics.py`, `src/mcp_server/tools/search_tools.py`)
against its natural-language specification.

Modelling conventions:
* Python strings are embedded as `List Char` (`Str`).
* Python floats are embedded as exact rationals (`ℚ`); all scores involved
  are small exact fractions, far from any IEEE-754 rounding boundary.
* Dates are embedded as natural numbers (one unit = one day); the
  day-by-day `while current <= end` loops become iteration over
  `List.range' start (end + 1 - start)`.
* Dict iteration order in CPython is insertion order; ordered association
  lists model dicts and `collections.Counter`.
* The title repository (`data_service`, external to the analysed core) is
  an association list from date to the data returned by
  `read_all_titles_for_date`.
-/

/- Batteries marks the ℚ field operations `@[irreducible]`; the kernel can
evaluate them regardless, and restoring default reducibility lets concrete
scores in witnesses and counterexamples be checked by `decide`. -/
attribute [local semireducible] Rat.mul Rat.add Rat.sub Rat.inv

/-- A Python string, embedded as its character sequence. -/
abbrev Str := List Char

/-- Python `str.lower()` restricted to the ASCII range, which is the case
split relevant for this corpus (CJK characters are unaffected by
`lower()`, as in Python). -/
def pyLower (s : Str) : Str := s.map Char.toLower

/-- Python `\s` / `str.strip()` whitespace class (ASCII part). -/
def isPySpace (c : Char) : Bool :=
  c = ' ' || c = '\t' || c = '\n' || c = '\r' || c.toNat = 11 || c.toNat = 12

/-- Python `str.strip()`. -/
def pyStrip (s : Str) : Str :=
  ((s.dropWhile isPySpace).reverse.dropWhile isPySpace).reverse

/-- Python `needle in hay` (contiguous substring test). -/
def isSubstr (needle hay : Str) : Bool :=
  hay.tails.any (fun t => needle.isPrefixOf t)

/-- Round-half-to-even on ℚ, as Python's `round` does on its argument
(Python rounds the nearest double; all values rounded in this development
are far from a representation boundary, so the rational model agrees). -/
def pyRoundInt (x : ℚ) : ℤ :=
  let n := ⌊x⌋
  let f := x - n
  if f < 1/2 then n
  else if 1/2 < f then n + 1
  else if Even n then n else n + 1

/-- Python `round(x, d)`. -/
def pyRound (x : ℚ) (d : ℕ) : ℚ :=
  (pyRoundInt (x * (10 : ℚ) ^ d) : ℚ) / (10 : ℚ) ^ d

/-! ## `calculate_news_weight` (analytics.py lines 24-74)

```python
ranks = news_data.get("ranks", [])
if not ranks: return 0.0
count = news_data.get("count", len(ranks))
rank_scores = [11 - min(rank, 10) for rank in ranks]
rank_weight = sum(rank_scores) / len(ranks) if ranks else 0
frequency_weight = min(count, 10) * 10
high_rank_count = sum(1 for rank in ranks if rank <= rank_threshold)
hotness_ratio = high_rank_count / len(ranks) if ranks else 0
hotness_weight = hotness_ratio * 100
return rank_weight*0.6 + frequency_weight*0.3 + hotness_weight*0.1
```
The dict fields `ranks` and `count` become explicit arguments; every call
site in the two analysed files passes `count = len(ranks)` (the data
model's `count` is derived as `len(ranks)`). Ranks are observed list
positions, hence naturals. -/
def calculate_news_weight (ranks : List ℕ) (count : ℕ) (rank_threshold : ℕ := 5) : ℚ :=
  if ranks = [] then 0
  else
    let rank_scores : List ℚ := ranks.map (fun r : ℕ => 11 - min (r : ℚ) 10)
    let rank_weight : ℚ := rank_scores.sum / (ranks.length : ℚ)
    let frequency_weight : ℚ := min (count : ℚ) 10 * 10
    let high_rank_count : ℕ := (ranks.filter (fun r => r ≤ rank_threshold)).length
    let hotness_weight : ℚ := (high_rank_count : ℚ) / (ranks.length : ℚ) * 100
    rank_weight * (6/10) + frequency_weight * (3/10) + hotness_weight * (1/10)

/-- The weight formula exactly as the specification words it, for a record
whose occurrence count is `count`. -/
def newsWeightSpecFormula (ranks : List ℕ) (count : ℕ) (rank_threshold : ℕ) : ℚ :=
  (6/10) * ((ranks.map (fun r : ℕ => 11 - min (r : ℚ) 10)).sum / (ranks.length : ℚ))
    + (3/10) * (min (count : ℚ) 10 * 10)
    + (1/10) * (((ranks.filter (fun r => r ≤ rank_threshold)).length : ℚ)
                  / (count : ℚ) * 100)

/-! ## `difflib.SequenceMatcher` (Python stdlib)

Both `_calculate_similarity` methods delegate to
`SequenceMatcher(None, x, y).ratio()`.  The embedding below follows the
CPython implementation of `__chain_b`, `find_longest_match` and
`get_matching_blocks`/`ratio` with `isjunk=None` (so the `bjunk` set is
empty) and `autojunk=True` (characters of `b` occurring more than
`len(b)//100 + 1` times are dropped from `b2j` when `len(b) >= 200`).
`ratio()` only depends on the total size of the matching blocks, so the
embedding computes that total directly; the block-merging step of
`get_matching_blocks` does not change the total.  The bounded loops are
written with an explicit fuel that is always at least the number of
iterations the Python loop performs. -/

/-- The ascending list of positions of `c` in `b` (an entry of difflib's
`b2j` before junk purging). -/
def charPositions (b : Str) (c : Char) : List ℕ :=
  (List.range b.length).filter (fun j => b.getD j ' ' = c)

/-- difflib autojunk ("popular" characters): active only when
`len(b) >= 200`. -/
def isPopular (b : Str) (c : Char) : Bool :=
  decide (200 ≤ b.length) && decide (b.length / 100 + 1 < b.count c)

/-- difflib `b2j` after autojunk purging. -/
def b2jMap (b : Str) (c : Char) : List ℕ :=
  if isPopular b c then [] else charPositions b c

/-- State of the `find_longest_match` dynamic-programming loop:
the current row's `newj2len` dict (total function, absent keys are 0)
and the best match so far. -/
structure FlmState where
  j2len : ℕ → ℕ
  besti : ℕ
  bestj : ℕ
  bestsize : ℕ

/-- One iteration of the inner `for j in b2j.get(a[i], nothing)` loop:
`k = newj2len[j] = j2len.get(j-1, 0) + 1`, updating the best match when
`k > bestsize` (difflib sets `besti, bestj, bestsize = i-k+1, j-k+1, k`). -/
def flmInner (j2old : ℕ → ℕ) (i : ℕ) (st : FlmState) (j : ℕ) : FlmState :=
  let k := (if j = 0 then 0 else j2old (j - 1)) + 1
  let nj : ℕ → ℕ := fun x => if x = j then k else st.j2len x
  if st.bestsize < k then ⟨nj, i + 1 - k, j + 1 - k, k⟩
  else ⟨nj, st.besti, st.bestj, st.bestsize⟩

/-- One iteration of the outer `for i in range(alo, ahi)` loop.  The inner
loop skips `j < blo` (`continue`) and stops at the first `j >= bhi`
(`break`; the position lists are ascending); `newj2len` starts empty. -/
def flmRow (a : Str) (bj : Char → List ℕ) (blo bhi : ℕ) (st : FlmState) (i : ℕ) : FlmState :=
  let js := ((bj (a.getD i ' ')).takeWhile (fun j => j < bhi)).filter (fun j => blo ≤ j)
  js.foldl (flmInner st.j2len i) ⟨fun _ => 0, st.besti, st.bestj, st.bestsize⟩

/-- The `while besti > alo and bestj > blo and cond(b[bestj-1]) and
a[besti-1] == b[bestj-1]` extension loop of `find_longest_match`
(used twice: with `cond = not isbjunk` and with `cond = isbjunk`).
`fuel` is instantiated with `besti`, an upper bound on the iteration
count. -/
def extLeft (a b : Str) (alo blo : ℕ) (cond : Char → Bool) :
    ℕ → ℕ → ℕ → ℕ → ℕ × ℕ × ℕ
  | 0, besti, bestj, bestsize => (besti, bestj, bestsize)
  | fuel + 1, besti, bestj, bestsize =>
    if alo < besti ∧ blo < bestj ∧ cond (b.getD (bestj - 1) ' ') = true
        ∧ a.getD (besti - 1) ' ' = b.getD (bestj - 1) ' ' then
      extLeft a b alo blo cond fuel (besti - 1) (bestj - 1) (bestsize + 1)
    else (besti, bestj, bestsize)

/-- The `while besti+bestsize < ahi and bestj+bestsize < bhi and
cond(b[bestj+bestsize]) and a[besti+bestsize] == b[bestj+bestsize]`
extension loop; returns the extended `bestsize`.  `fuel` is instantiated
with `ahi`. -/
def extRight (a b : Str) (ahi bhi : ℕ) (cond : Char → Bool) (besti bestj : ℕ) :
    ℕ → ℕ → ℕ
  | 0, bestsize => bestsize
  | fuel + 1, bestsize =>
    if besti + bestsize < ahi ∧ bestj + bestsize < bhi
        ∧ cond (b.getD (bestj + bestsize) ' ') = true
        ∧ a.getD (besti + bestsize) ' ' = b.getD (bestj + bestsize) ' ' then
      extRight a b ahi bhi cond besti bestj fuel (bestsize + 1)
    else bestsize

/-- difflib `find_longest_match(alo, ahi, blo, bhi)`: the DP loop, then the
four extension loops (non-junk left/right, then junk left/right; with
`isjunk=None` the junk set is empty, so `bjunk` is `fun _ => false` at
every use site and the last two loops are inert). -/
def find_longest_match (a b : Str) (bj : Char → List ℕ) (bjunk : Char → Bool)
    (alo ahi blo bhi : ℕ) : ℕ × ℕ × ℕ :=
  let st := (List.range' alo (ahi - alo)).foldl (flmRow a bj blo bhi)
      ⟨fun _ => 0, alo, blo, 0⟩
  let e1 := extLeft a b alo blo (fun c => !bjunk c) st.besti st.besti st.bestj st.bestsize
  let k2 := extRight a b ahi bhi (fun c => !bjunk c) e1.1 e1.2.1 ahi e1.2.2
  let e3 := extLeft a b alo blo bjunk e1.1 e1.1 e1.2.1 k2
  let k4 := extRight a b ahi bhi bjunk e3.1 e3.2.1 ahi e3.2.2
  (e3.1, e3.2.1, k4)

/-- Total size of all matching blocks (what `ratio()` consumes): the
recursive subdivision done by `get_matching_blocks`.  `fuel` is always at
least the recursion depth (each recursive call strictly shrinks the sum
of the two interval lengths). -/
def matchedAux (a b : Str) (bj : Char → List ℕ) (bjunk : Char → Bool) :
    ℕ → ℕ → ℕ → ℕ → ℕ → ℕ
  | 0, _, _, _, _ => 0
  | fuel + 1, alo, ahi, blo, bhi =>
    let m := find_longest_match a b bj bjunk alo ahi blo bhi
    if m.2.2 = 0 then 0
    else matchedAux a b bj bjunk fuel alo m.1 blo m.2.1 + m.2.2
         + matchedAux a b bj bjunk fuel (m.1 + m.2.2) ahi (m.2.1 + m.2.2) bhi

/-- Total matched size over the full strings. -/
def matchedTotal (a b : Str) : ℕ :=
  matchedAux a b (b2jMap b) (fun _ => false) (a.length + b.length + 1)
    0 a.length 0 b.length

/-- `SequenceMatcher(None, a, b).ratio()`: `2*M / (len(a)+len(b))`, and
`1.0` when both strings are empty (difflib `_calculate_ratio`). -/
def seqMatcherScore (a b : Str) : ℚ :=
  if a.length + b.length = 0 then 1
  else 2 * (matchedTotal a b : ℚ) / ((a.length : ℚ) + (b.length : ℚ))

/-- `AnalyticsTools._calculate_similarity` (analytics.py 1951-1963):
`SequenceMatcher(None, text1, text2).ratio()` on the raw texts. -/
def analytics_calculate_similarity (text1 text2 : Str) : ℚ :=
  seqMatcherScore text1 text2

/-- `SearchTools._calculate_similarity` (search_tools.py 391-403):
`SequenceMatcher(None, text1.lower(), text2.lower()).ratio()`. -/
def search_calculate_similarity (text1 text2 : Str) : ℚ :=
  seqMatcherScore (pyLower text1) (pyLower text2)

/-! ## Keyword extraction

`SearchTools._extract_keywords` (search_tools.py 442-466) and
`AnalyticsTools._extract_keywords` (analytics.py 1923-1949). -/

/-- Python `\w` for the text occurring in this corpus: ASCII
alphanumerics, underscore, and CJK unified ideographs.  (Python's Unicode
`\w` also covers further scripts that do not occur in this repository's
data or stopword sets.) -/
def isWordChar (c : Char) : Bool :=
  c.isAlphanum || c = '_' || (decide (0x4E00 ≤ c.toNat) && decide (c.toNat ≤ 0x9FFF))

/-- If `s` starts with a match of `http[s]?://\S+`, the number of
characters of that match after its first character. -/
def urlMatchTail (s : Str) : Option ℕ :=
  let proto : Option ℕ :=
    if (['h','t','t','p','s',':','/','/'] : Str).isPrefixOf s then some 8
    else if (['h','t','t','p',':','/','/'] : Str).isPrefixOf s then some 7
    else none
  match proto with
  | none => none
  | some p =>
    let run := (s.drop p).takeWhile (fun c => !isPySpace c)
    if run.length = 0 then none else some (p + run.length - 1)

/-- Scanner for `re.sub(r'http[s]?://\S+', '', s)`: leftmost,
non-overlapping.  The fuel argument (instantiated with `s.length`, an
upper bound on the number of iterations since every step consumes at
least one character) keeps the recursion structural so that concrete
instances evaluate inside the kernel. -/
def stripUrlsAux : ℕ → Str → Str
  | 0, s => s
  | _ + 1, [] => []
  | fuel + 1, c :: rest =>
    match urlMatchTail (c :: rest) with
    | some n => stripUrlsAux fuel (rest.drop n)
    | none => c :: stripUrlsAux fuel rest

/-- `re.sub(r'http[s]?://\S+', '', s)`. -/
def stripUrls (s : Str) : Str := stripUrlsAux s.length s

/-- If `s` starts with a match of the non-greedy `\[.*?\]` (no newline in
the matched region, shortest closing bracket), the number of characters
of that match after the opening bracket. -/
def bracketMatchTail (s : Str) : Option ℕ :=
  match s with
  | '[' :: rest =>
    let content := rest.takeWhile (fun c => !(c = ']' || c = '\n'))
    match rest.drop content.length with
    | ']' :: _ => some (content.length + 1)
    | _ => none
  | _ => none

/-- Scanner for `re.sub(r'\[.*?\]', '', s)` (search_tools only), fueled
like `stripUrlsAux`. -/
def stripBracketsAux : ℕ → Str → Str
  | 0, s => s
  | _ + 1, [] => []
  | fuel + 1, c :: rest =>
    match bracketMatchTail (c :: rest) with
    | some n => stripBracketsAux fuel (rest.drop n)
    | none => c :: stripBracketsAux fuel rest

/-- `re.sub(r'\[.*?\]', '', s)`. -/
def stripBrackets (s : Str) : Str := stripBracketsAux s.length s

/-- Scanner for `re.findall(r'[\w]+', s)` (the maximal runs of word
characters), fueled like `stripUrlsAux`. -/
def wordRunsAux : ℕ → Str → List Str
  | 0, _ => []
  | _ + 1, [] => []
  | fuel + 1, c :: rest =>
    if isWordChar c then
      (c :: rest.takeWhile isWordChar)
        :: wordRunsAux fuel (rest.drop (rest.takeWhile isWordChar).length)
    else wordRunsAux fuel rest

/-- `re.findall(r'[\w]+', s)`. -/
def wordRuns (s : Str) : List Str := wordRunsAux s.length s

/-- The `SearchTools` stopword set (search_tools.py 30-36). -/
def searchStopwords : List Str :=
  [['的'], ['了'], ['在'], ['是'], ['我'], ['有'], ['和'], ['就'], ['不'], ['人'],
   ['都'], ['一'], ['一','个'], ['上'], ['也'], ['很'], ['到'], ['说'], ['要'], ['去'],
   ['你'], ['会'], ['着'], ['没','有'], ['看'], ['好'], ['自','己'], ['这'], ['那'],
   ['来'], ['被'], ['与'], ['为'], ['对'], ['将'], ['从'], ['以'], ['及'], ['等'],
   ['但'], ['或'], ['而'], ['于'], ['中'], ['由'], ['可'], ['可','以'], ['已'],
   ['已','经'], ['还'], ['更'], ['最'], ['再'], ['因','为'], ['所','以'], ['如','果'],
   ['虽','然'], ['然','而']]

/-- The `AnalyticsTools._extract_keywords` stopword set (analytics.py 1942). -/
def analyticsStopwords : List Str :=
  [['的'], ['了'], ['在'], ['是'], ['我'], ['有'], ['和'], ['就'], ['不'], ['人'],
   ['都'], ['一'], ['一','个'], ['上'], ['也'], ['很'], ['到'], ['说'], ['要'], ['去'],
   ['你'], ['会'], ['着'], ['没','有'], ['看'], ['好'], ['自','己'], ['这']]

/-- `SearchTools._extract_keywords(text, min_length=2)`:
strip URLs, strip bracketed segments, tokenize with `[\w]+`, drop tokens
that are empty, shorter than `min_length`, or stopwords. -/
def searchTools_extract_keywords (text : Str) (min_length : ℕ := 2) : List Str :=
  let t := stripBrackets (stripUrls text)
  (wordRuns t).filter
    (fun w => w ≠ [] ∧ min_length ≤ w.length ∧ w ∉ searchStopwords)

/-- `re.sub(r'[^\w\s]', ' ', ·)` (analytics version). -/
def analyticsCharClean (c : Char) : Char :=
  if !isWordChar c && !isPySpace c then ' ' else c

/-- The separator class of `re.split(r'[\s，。！？、]+', ·)`. -/
def analyticsSepChar (c : Char) : Bool :=
  isPySpace c || c ∈ (['，', '。', '！', '？', '、'] : List Char)

/-- `AnalyticsTools._extract_keywords(title, min_length=2)`:
strip URLs, replace non-word non-space characters by a space, split on
separator runs, keep stripped tokens that are non-empty, long enough and
not stopwords.  (`re.split` on the one-or-more pattern differs from the
per-character `splitOnP` only by extra empty fields, which the
non-emptiness filter below discards identically.) -/
def analytics_extract_keywords (title : Str) (min_length : ℕ := 2) : List Str :=
  let t := (stripUrls title).map analyticsCharClean
  let words := t.splitOnP analyticsSepChar
  (words.map pyStrip).filter
    (fun w => w ≠ [] ∧ min_length ≤ w.length ∧ w ∉ analyticsStopwords)

/-! ## `SearchTools._fuzzy_match` (search_tools.py 405-440) and
`SearchTools._calculate_keyword_overlap` (search_tools.py 468-492) -/

/-- `_fuzzy_match(query, text, threshold=0.3)`, exactly as the code's
early-return chain:
substring => `(True, 1.0)`; similarity at or above threshold =>
`(True, similarity)`; an empty extracted-keyword set on either side =>
`(False, 0.0)`; keyword overlap `|common|/|query_words|` at or above 0.5
=> `(True, overlap)`; otherwise `(False, similarity)`. -/
def fuzzy_match (query text : Str) (threshold : ℚ := 3/10) : Bool × ℚ :=
  if isSubstr (pyLower query) (pyLower text) then (true, 1)
  else
    let similarity := search_calculate_similarity query text
    if threshold ≤ similarity then (true, similarity)
    else
      let query_words := (searchTools_extract_keywords query).toFinset
      let text_words := (searchTools_extract_keywords text).toFinset
      if query_words = ∅ ∨ text_words = ∅ then (false, 0)
      else
        let common_words := query_words ∩ text_words
        let keyword_overlap : ℚ := (common_words.card : ℚ) / (query_words.card : ℚ)
        if (1/2 : ℚ) ≤ keyword_overlap then (true, keyword_overlap)
        else (false, similarity)

/-- The three-tier decision exactly as claim C3 states it (no provision
for empty keyword sets; the quotient `|Q ∩ T| / |Q|` is read with the
total division of ℚ, so it is 0 when `Q` is empty). -/
def fuzzyMatchClaimTiers (query text : Str) (threshold : ℚ) : Bool × ℚ :=
  if isSubstr (pyLower query) (pyLower text) then (true, 1)
  else
    let similarity := search_calculate_similarity query text
    if threshold ≤ similarity then (true, similarity)
    else
      let q := (searchTools_extract_keywords query).toFinset
      let t := (searchTools_extract_keywords text).toFinset
      let overlap : ℚ := ((q ∩ t).card : ℚ) / (q.card : ℚ)
      if (1/2 : ℚ) ≤ overlap then (true, overlap) else (false, similarity)

/-- The three-tier decision amended with the code's actual handling of an
empty keyword set on either side: such queries/texts short-circuit to
`(not matched, 0.0)` instead of reporting the tier-2 similarity. -/
def fuzzyMatchAmendedTiers (query text : Str) (threshold : ℚ) : Bool × ℚ :=
  if isSubstr (pyLower query) (pyLower text) then (true, 1)
  else
    let similarity := search_calculate_similarity query text
    if threshold ≤ similarity then (true, similarity)
    else
      let q := (searchTools_extract_keywords query).toFinset
      let t := (searchTools_extract_keywords text).toFinset
      if q = ∅ ∨ t = ∅ then (false, 0)
      else
        let overlap : ℚ := ((q ∩ t).card : ℚ) / (q.card : ℚ)
        if (1/2 : ℚ) ≤ overlap then (true, overlap) else (false, similarity)

/-- `_calculate_keyword_overlap`: Jaccard index of the two keyword sets,
0 when either input list is empty (and on an empty union). -/
def calculate_keyword_overlap (keywords1 keywords2 : List Str) : ℚ :=
  if keywords1 = [] ∨ keywords2 = [] then 0
  else
    let set1 := keywords1.toFinset
    let set2 := keywords2.toFinset
    let i := (set1 ∩ set2).card
    let u := (set1 ∪ set2).card
    if u = 0 then 0 else (i : ℚ) / (u : ℚ)

/-! ## Title repository model

The repository is an external collaborator (`data_service`, not part of
the analysed core).  Modelled from the spec:
`read_all_titles_for_date(date, platform_ids?) ->
(titles_by_platform, platform_id_to_name, filename_to_timestamp)`,
raising DataNotFound exactly when the date has no stored snapshot, and
`get_available_date_range() -> (earliest_date_or_null, latest_date_or_null)`.
The `filename_to_timestamp` component is consumed only by
`get_platform_activity_stats`, which no claim touches, so it is not
modelled. -/

/-- One title's stored metadata (`{ranks, url, mobileUrl}`). -/
structure TitleInfo where
  ranks : List ℕ
  url : Str := []
  mobileUrl : Str := []
deriving DecidableEq

/-- What `read_all_titles_for_date` yields for one date (dicts in
insertion order). -/
structure DayData where
  platforms : List (Str × List (Str × TitleInfo))
  idToName : List (Str × Str)
deriving DecidableEq

/-- The repository: the dates that have stored data. -/
abbrev Repo := List (ℕ × DayData)

/-- Modelled from the spec: reading a date; `none` is the DataNotFound
condition. -/
def lookupDay (repo : Repo) (d : ℕ) : Option DayData :=
  (repo.find? (fun p => p.1 = d)).map (·.2)

/-- Modelled from the spec: the latest date with any available data. -/
def latestDate (repo : Repo) : Option ℕ := (repo.map (·.1)).max?

/-- Modelled from the spec: the earliest date with any available data. -/
def earliestDate (repo : Repo) : Option ℕ := (repo.map (·.1)).min?

/-- The optional `platform_ids` filter of `read_all_titles_for_date`. -/
def dayView (day : DayData) (platforms : Option (List Str)) :
    List (Str × List (Str × TitleInfo)) :=
  match platforms with
  | none => day.platforms
  | some ps => day.platforms.filter (fun pl => pl.1 ∈ ps)

/-- `id_to_name.get(platform_id, platform_id)`. -/
def platformName (idToName : List (Str × Str)) (pid : Str) : Str :=
  ((idToName.find? (fun p => p.1 = pid)).map (·.2)).getD pid

/-- All titles of a day in platform-then-title iteration order. -/
def dayTitles (day : DayData) : List Str :=
  day.platforms.flatMap (fun pl => pl.2.map (·.1))

/-- Modelled from the spec: `validate_limit(n, default, max) -> clamped
int` (external validator; a missing/zero limit falls back to the default,
an explicit maximum clamps from above — all claims use positive
in-range limits, for which it is the identity). -/
def validate_limit (n : ℕ) (default : ℕ) (maxLimit : Option ℕ := none) : ℕ :=
  if n = 0 then default
  else match maxLimit with
       | none => n
       | some m => min n m

/-! ## Stable sorting

Python's `list.sort` is stable.  For a total preorder `le`, the stable
sort of a list is unique (sortedness plus preservation of the relative
order of `le`-ties determines the output), so the insertion sort below —
which is structural and therefore evaluates inside the kernel — computes
exactly Python's result for every comparison used in this file (all are
`key(y) <= key(x)`-style total comparisons). -/

/-- Insert `x` after every already-placed element `y` with `le y x`
(so later ties land after earlier ones: stability). -/
def insertStable {α : Type} (le : α → α → Bool) (x : α) : List α → List α
  | [] => [x]
  | y :: t => if le y x then y :: insertStable le x t else x :: y :: t

/-- Stable sort by `le`. -/
def stableSort {α : Type} (le : α → α → Bool) (l : List α) : List α :=
  l.foldl (fun acc x => insertStable le x acc) []

/-! ## Ordered counters (`collections.Counter` / `defaultdict(int)` with
CPython's insertion-order dict iteration) -/

/-- Add `n` occurrences of a key to an ordered counter. -/
def counterAddN {α : Type} [DecidableEq α] (l : List (α × ℕ)) (w : α) (n : ℕ) :
    List (α × ℕ) :=
  match l with
  | [] => [(w, n)]
  | (k, v) :: t => if k = w then (k, v + n) :: t else (k, v) :: counterAddN t w n

/-- Add one occurrence (`counter[w] += 1`). -/
def counterAdd {α : Type} [DecidableEq α] (l : List (α × ℕ)) (w : α) : List (α × ℕ) :=
  counterAddN l w 1

/-- `counter.update(ws)`. -/
def counterUpdate {α : Type} [DecidableEq α] (l : List (α × ℕ)) (ws : List α) :
    List (α × ℕ) :=
  ws.foldl counterAdd l

/-- `Counter(ws)`. -/
def counterOf {α : Type} [DecidableEq α] (ws : List α) : List (α × ℕ) :=
  counterUpdate [] ws

/-- `counter.get(k, 0)`. -/
def countOf {α : Type} [DecidableEq α] (l : List (α × ℕ)) (k : α) : ℕ :=
  ((l.find? (fun p => p.1 = k)).map (·.2)).getD 0

/-- `counter.most_common(n)`: count-descending, stable (CPython documents
`nlargest` as equivalent to `sorted(..., reverse=True)[:n]`). -/
def mostCommon {α : Type} [DecidableEq α] (l : List (α × ℕ)) (n : ℕ) : List (α × ℕ) :=
  (stableSort (fun x y => decide (y.2 ≤ x.2)) l).take n

/-! ## `SearchTools.search_news_unified` (search_tools.py 38-240) -/

/-- A matched news item as the three `_search_by_*_mode` helpers build it
(the optional `include_url` enrichment adds URL fields read verbatim from
the repository and is not modelled). -/
structure NewsItem where
  title : Str
  platform : Str
  platform_name : Str
  date : ℕ
  similarity_score : ℚ
  ranks : List ℕ
  count : ℕ
  rank : ℕ
deriving DecidableEq

inductive SearchMode | keyword | fuzzy | entity
deriving DecidableEq

inductive SortBy | relevance | weight | date
deriving DecidableEq

inductive ErrCode | invalidParameter | dataNotFound | noDataAvailable
deriving DecidableEq

/-- Build one match dict (`rank` is `ranks[0] if ranks else 999`). -/
def mkSearchItem (pid pname : Str) (d : ℕ) (title : Str) (info : TitleInfo)
    (score : ℚ) : NewsItem :=
  ⟨title, pid, pname, d, score, info.ranks, info.ranks.length, info.ranks.headD 999⟩

/-- `_search_by_keyword_mode` (search_tools.py 242-289): case-insensitive
substring, similarity fixed at 1.0. -/
def search_by_keyword_mode (query : Str)
    (view : List (Str × List (Str × TitleInfo))) (idToName : List (Str × Str))
    (d : ℕ) : List NewsItem :=
  view.flatMap (fun pl =>
    pl.2.filterMap (fun t =>
      if isSubstr (pyLower query) (pyLower t.1) then
        some (mkSearchItem pl.1 (platformName idToName pl.1) d t.1 t.2 1)
      else none))

/-- `_search_by_fuzzy_mode` (search_tools.py 291-341): `_fuzzy_match`,
reported score rounded to 4 places. -/
def search_by_fuzzy_mode (query : Str)
    (view : List (Str × List (Str × TitleInfo))) (idToName : List (Str × Str))
    (d : ℕ) (threshold : ℚ) : List NewsItem :=
  view.flatMap (fun pl =>
    pl.2.filterMap (fun t =>
      let m := fuzzy_match query t.1 threshold
      if m.1 then
        some (mkSearchItem pl.1 (platformName idToName pl.1) d t.1 t.2 (pyRound m.2 4))
      else none))

/-- `_search_by_entity_mode` (search_tools.py 343-389): case-sensitive
substring, similarity fixed at 1.0. -/
def search_by_entity_mode (query : Str)
    (view : List (Str × List (Str × TitleInfo))) (idToName : List (Str × Str))
    (d : ℕ) : List NewsItem :=
  view.flatMap (fun pl =>
    pl.2.filterMap (fun t =>
      if isSubstr query t.1 then
        some (mkSearchItem pl.1 (platformName idToName pl.1) d t.1 t.2 1)
      else none))

/-- The day-by-day collection loop of `search_news_unified` (a missing
day is `except DataNotFoundError: pass`). -/
def searchCollect (repo : Repo) (query : Str) (mode : SearchMode) (threshold : ℚ)
    (platforms : Option (List Str)) (startD endD : ℕ) : List NewsItem :=
  (List.range' startD (endD + 1 - startD)).flatMap (fun d =>
    match lookupDay repo d with
    | none => []
    | some day =>
      let view := dayView day platforms
      match mode with
      | .keyword => search_by_keyword_mode query view day.idToName d
      | .fuzzy => search_by_fuzzy_mode query view day.idToName d threshold
      | .entity => search_by_entity_mode query view day.idToName d)

/-- Python's stable `list.sort(key=..., reverse=True)` on the three sort
keys (`date` strings `YYYY-MM-DD` compare exactly like the day numbers
embedding them). -/
def sortMatches (sortBy : SortBy) (l : List NewsItem) : List NewsItem :=
  match sortBy with
  | .relevance => stableSort (fun x y => decide (y.similarity_score ≤ x.similarity_score)) l
  | .weight => stableSort (fun x y =>
      decide (calculate_news_weight y.ranks y.count ≤ calculate_news_weight x.ranks x.count)) l
  | .date => stableSort (fun x y => decide (y.date ≤ x.date)) l

/-- Outcome of `search_news_unified`: the failure envelope, the
`{success: true, results: [], total: 0, ...}` envelope produced when no
title matched, or the populated success envelope.  Both success shapes
record the resolved date range the search ran over. -/
inductive SearchResult where
  | failure (code : ErrCode)
  | emptyOk (query : Str) (resolvedStart resolvedEnd : ℕ)
  | ok (resolvedStart resolvedEnd : ℕ) (totalFound : ℕ) (results : List NewsItem)
deriving DecidableEq

/-- `search_news_unified` after date-range resolution: collect per day,
return the empty-success envelope when nothing matched, otherwise sort by
the chosen key and truncate to `limit`. -/
def search_news_unified_core (repo : Repo) (query : Str) (mode : SearchMode)
    (startD endD : ℕ) (platforms : Option (List Str)) (limit : ℕ)
    (sortBy : SortBy) (threshold : ℚ) : SearchResult :=
  let all_matches := searchCollect repo query mode threshold platforms startD endD
  if all_matches = [] then .emptyOk query startD endD
  else .ok startD endD all_matches.length ((sortMatches sortBy all_matches).take limit)

/-- `search_news_unified` (search_tools.py 38-240).  `validate_keyword`
(external, modelled from the spec) trims and rejects empty queries; the
mode/sort enum validation is absorbed by the typed parameters; the
threshold is clamped to [0,1]; with no date range the search resolves to
the latest repository date, or to the `NO_DATA_AVAILABLE` failure when
the repository is empty. -/
def search_news_unified (repo : Repo) (query : Str) (mode : SearchMode)
    (dateRange : Option (ℕ × ℕ)) (platforms : Option (List Str)) (limit : ℕ)
    (sortBy : SortBy) (threshold : ℚ) : SearchResult :=
  if pyStrip query = [] then .failure .invalidParameter
  else
    let q := pyStrip query
    let lim := validate_limit limit 50
    let th := max 0 (min 1 threshold)
    match dateRange with
    | some (s, e) => search_news_unified_core repo q mode s e platforms lim sortBy th
    | none =>
      match latestDate repo with
      | none => .failure .noDataAvailable
      | some d => search_news_unified_core repo q mode d d platforms lim sortBy th

/-! ## `AnalyticsTools.find_similar_news` (analytics.py 910-1028) -/

structure SimilarItem where
  title : Str
  platform : Str
  platform_name : Str
  similarity : ℚ
  rank : ℕ
deriving DecidableEq

inductive SimilarResult
  | failure (code : ErrCode)
  | ok (totalFound : ℕ) (items : List SimilarItem)
deriving DecidableEq

/-- The candidate loop of `find_similar_news`: titles other than the
reference itself whose raw-text similarity reaches the threshold (stored
rounded to 3 places, `rank = ranks[0] if ranks else 0`). -/
def similarCandidates (day : DayData) (ref : Str) (threshold : ℚ) : List SimilarItem :=
  day.platforms.flatMap (fun pl =>
    pl.2.filterMap (fun t =>
      if t.1 = ref then none
      else
        let similarity := analytics_calculate_similarity ref t.1
        if threshold ≤ similarity then
          some (⟨t.1, pl.1, platformName day.idToName pl.1,
                 pyRound similarity 3, t.2.ranks.headD 0⟩ : SimilarItem)
        else none))

/-- `find_similar_news(reference_title, threshold, limit)`: today's data
only (a missing today propagates DataNotFound); keep titles other than
the reference itself whose raw-text similarity reaches the threshold
(stored rounded to 3 places, `rank = ranks[0] if ranks else 0`); sort by
the stored similarity descending; DataNotFound when nothing survives. -/
def find_similar_news (todayData : Option DayData) (reference_title : Str)
    (threshold : ℚ) (limit : ℕ) : SimilarResult :=
  if pyStrip reference_title = [] then .failure .invalidParameter
  else
    let ref := pyStrip reference_title
    if ¬ (0 ≤ threshold ∧ threshold ≤ 1) then .failure .invalidParameter
    else
      let lim := validate_limit limit 50
      match todayData with
      | none => .failure .dataNotFound
      | some day =>
        let similar_items := similarCandidates day ref threshold
        let sorted := stableSort (fun x y => decide (y.similarity ≤ x.similarity)) similar_items
        let result_items := sorted.take lim
        if result_items = [] then .failure .dataNotFound
        else .ok similar_items.length result_items

/-! ## `SearchTools.search_related_news_history` (search_tools.py 494-701) -/

inductive TimePreset | yesterday | last_week | last_month | custom
deriving DecidableEq

/-- One related-news hit.  `common_keywords` is `list(set & set)` in the
source, whose order is Python-set iteration order (unspecified), so it is
embedded as the set itself. -/
structure RelatedItem where
  title : Str
  platform : Str
  platform_name : Str
  date : ℕ
  similarity_score : ℚ
  keyword_overlap : ℚ
  text_similarity : ℚ
  common_keywords : Finset Str
  rank : ℕ
deriving DecidableEq

inductive RelatedResult
  | failure (code : ErrCode)
  | emptyOk (searchStart searchEnd : ℕ)
  | ok (searchStart searchEnd : ℕ) (totalFound : ℕ) (results : List RelatedItem)
      (avg_similarity : ℚ) (platformDist : List (Str × ℕ)) (dateDist : List (ℕ × ℕ))
deriving DecidableEq

/-- The combined score of claim C9: `0.7 × keyword_overlap +
0.3 × text_similarity` (keyword overlap of the two extracted keyword
lists, Jaccard over their sets). -/
def combinedScore (refText title : Str) : ℚ :=
  calculate_keyword_overlap (searchTools_extract_keywords refText)
      (searchTools_extract_keywords title) * (7/10)
    + search_calculate_similarity refText title * (3/10)

/-- The per-day collection loop of `search_related_news_history`: per
title, `combined_score = keyword_overlap*0.7 + title_similarity*0.3`,
kept when it reaches the threshold (scores stored rounded to 4 places,
`rank = ranks[0] if ranks else 0`); a missing day contributes nothing. -/
def relatedCollect (repo : Repo) (ref : Str) (refKw : List Str) (threshold : ℚ)
    (s e : ℕ) : List RelatedItem :=
  (List.range' s (e + 1 - s)).flatMap (fun d =>
    match lookupDay repo d with
    | none => []
    | some day =>
      day.platforms.flatMap (fun pl =>
        pl.2.filterMap (fun t =>
          let title_similarity := search_calculate_similarity ref t.1
          let title_keywords := searchTools_extract_keywords t.1
          let keyword_overlap := calculate_keyword_overlap refKw title_keywords
          let combined := keyword_overlap * (7/10) + title_similarity * (3/10)
          if threshold ≤ combined then
            some (⟨t.1, pl.1, platformName day.idToName pl.1, d,
                   pyRound combined 4, pyRound keyword_overlap 4,
                   pyRound title_similarity 4,
                   refKw.toFinset ∩ title_keywords.toFinset,
                   t.2.ranks.headD 0⟩ : RelatedItem)
          else none)))

/-- The preset resolution of `search_related_news_history`:
yesterday = the single day before today; last_week = the 7 days before
today; last_month = the 30 days before today; custom requires both
bounds. -/
def resolvePreset (today : ℕ) (preset : TimePreset)
    (start_date end_date : Option ℕ) : Option (ℕ × ℕ) :=
  match preset, start_date, end_date with
  | .yesterday, _, _ => some (today - 1, today - 1)
  | .last_week, _, _ => some (today - 7, today - 1)
  | .last_month, _, _ => some (today - 30, today - 1)
  | .custom, some s, some e => some (s, e)
  | .custom, _, _ => none

/-- `search_related_news_history` (search_tools.py 494-701): validate and
trim the reference; resolve the preset (custom without both bounds fails
InvalidParameter); fail InvalidParameter when no reference keyword can be
extracted; collect per day; sort by the stored (rounded) combined score
descending, truncate to limit; report the average stored score and the
platform/date distribution counters. -/
def search_related_news_history (repo : Repo) (today : ℕ) (reference_text : Str)
    (preset : TimePreset) (start_date end_date : Option ℕ) (threshold : ℚ)
    (limit : ℕ) : RelatedResult :=
  if pyStrip reference_text = [] then .failure .invalidParameter
  else
    let ref := pyStrip reference_text
    let th := max 0 (min 1 threshold)
    let lim := validate_limit limit 50
    match resolvePreset today preset start_date end_date with
    | none => .failure .invalidParameter
    | some (s, e) =>
      let refKw := searchTools_extract_keywords ref
      if refKw = [] then .failure .invalidParameter
      else
        let all := relatedCollect repo ref refKw th s e
        if all = [] then .emptyOk s e
        else
          let sorted := stableSort (fun x y => decide (y.similarity_score ≤ x.similarity_score)) all
          .ok s e all.length (sorted.take lim)
            (pyRound ((all.map (·.similarity_score)).sum / (all.length : ℚ)) 4)
            (counterOf (all.map (·.platform)))
            (counterOf (all.map (·.date)))

/-! ## `AnalyticsTools.get_topic_trend_analysis` (analytics.py 244-400)

The function resolves a missing date range to "the last 7 days ending at
`datetime.now()`" and rejects granularities other than `"day"`; the
embedding takes the resolved inclusive day range (the only granularity)
as arguments. -/

/-- The day's count of titles containing the topic (case-insensitive
substring); a missing day counts 0 (`except DataNotFoundError`). -/
def topicDayMatches (repo : Repo) (topic : Str) (d : ℕ) : List Str :=
  match lookupDay repo d with
  | none => []
  | some day => (dayTitles day).filter (fun t => isSubstr (pyLower topic) (pyLower t))

def topicDayCount (repo : Repo) (topic : Str) (d : ℕ) : ℕ :=
  (topicDayMatches repo topic d).length

structure TrendPoint where
  date : ℕ
  count : ℕ
  sample_titles : List Str
deriving DecidableEq

structure TrendStats where
  total_mentions : ℕ
  average_mentions : ℚ
  peak_count : ℕ
  peak_time : Option ℕ
  change_rate : ℚ
deriving DecidableEq

inductive TrendDirection | up | down | flat
deriving DecidableEq

inductive TrendResult
  | failure (code : ErrCode)
  | ok (trend_data : List TrendPoint) (stats : TrendStats) (direction : TrendDirection)
deriving DecidableEq

/-- `get_topic_trend_analysis` over the resolved range: per-day counts
with up to 3 sample titles; with at least two days,
`first_non_zero = next((c for c in counts if c > 0), 0)`,
`change_rate = (last - first_non_zero)/first_non_zero*100` when
`first_non_zero > 0` else 0, and `peak_time` is the date of the first
index attaining `max(counts)`; with fewer than two days `change_rate = 0`,
`peak_time = None`, `max_count = 0`.  Direction: up when
`change_rate > 10`, down when `< -10`, else flat. -/
def get_topic_trend_analysis (repo : Repo) (topic : Str) (startD endD : ℕ) :
    TrendResult :=
  if pyStrip topic = [] then .failure .invalidParameter
  else
    let tp := pyStrip topic
    let days := List.range' startD (endD + 1 - startD)
    let trend_data : List TrendPoint := days.map (fun d =>
      ⟨d, topicDayCount repo tp d, (topicDayMatches repo tp d).take 3⟩)
    let counts : List ℕ := trend_data.map (·.count)
    let stats : TrendStats :=
      if 2 ≤ counts.length then
        let first_non_zero : ℕ := (counts.find? (fun c => 0 < c)).getD 0
        let last_count : ℕ := counts.getLastD 0
        let change_rate : ℚ :=
          if 0 < first_non_zero then
            ((last_count : ℚ) - (first_non_zero : ℚ)) / (first_non_zero : ℚ) * 100
          else 0
        let max_count := counts.foldl max 0
        let peak_index := counts.indexOf max_count
        let peak_time := (trend_data.getD peak_index ⟨0, 0, []⟩).date
        ⟨counts.sum,
         if counts = [] then 0 else pyRound ((counts.sum : ℚ) / (counts.length : ℚ)) 2,
         max_count, some peak_time, pyRound change_rate 2⟩
      else
        ⟨counts.sum,
         if counts = [] then 0 else pyRound ((counts.sum : ℚ) / (counts.length : ℚ)) 2,
         0, none, 0⟩
    .ok trend_data stats
      (if 10 < stats.change_rate then .up
       else if stats.change_rate < -10 then .down else .flat)

/-! ## `AnalyticsTools.analyze_topic_lifecycle` (analytics.py 1465-1621) -/

inductive Stage | rising | declining | bursting | stable
deriving DecidableEq

inductive TopicType | flash | sustained | cyclical
deriving DecidableEq

structure LifecycleAnalysis where
  first_appearance : Option ℕ
  last_appearance : Option ℕ
  peak_date : ℕ
  peak_count : ℕ
  active_days : ℕ
  avg_daily_mentions : ℚ
  lifecycle_stage : Stage
  topic_type : TopicType
deriving DecidableEq

inductive LifecycleResult
  | failure (code : ErrCode)
  | ok (lifecycle_data : List (ℕ × ℕ)) (analysis : LifecycleAnalysis)
deriving DecidableEq

/-- `analyze_topic_lifecycle` over the resolved range (missing range
defaults, upstream, to the last 7 days).  All-zero counts fail
DataNotFound.  Stage (in the code's order): rising when
`sum(last 3) > sum(first 3)`; declining when `sum(last 3) < 0.5*sum(first 3)`;
bursting when `max(counts)` occurs among the last 3 days; else stable.
Type: flash when `active_days <= 2 and peak > 2*mean(non-zero)`;
sustained when `active_days >= 0.6*total_days`; else cyclical. -/
def analyze_topic_lifecycle (repo : Repo) (topic : Str) (startD endD : ℕ) :
    LifecycleResult :=
  if pyStrip topic = [] then .failure .invalidParameter
  else
    let tp := pyStrip topic
    let days := List.range' startD (endD + 1 - startD)
    let lifecycle_data : List (ℕ × ℕ) := days.map (fun d => (d, topicDayCount repo tp d))
    let counts : List ℕ := lifecycle_data.map (·.2)
    if counts.all (· = 0) then .failure .dataNotFound
    else
      let total_days := endD + 1 - startD
      let first_appearance := (lifecycle_data.find? (fun p => 0 < p.2)).map (·.1)
      let last_appearance := (lifecycle_data.reverse.find? (fun p => 0 < p.2)).map (·.1)
      let max_count := counts.foldl max 0
      let peak_index := counts.indexOf max_count
      let peak_date := ((lifecycle_data.getD peak_index (0, 0))).1
      let non_zero := counts.filter (fun c => 0 < c)
      let avg_count : ℚ :=
        if non_zero = [] then 0 else (non_zero.sum : ℚ) / (non_zero.length : ℚ)
      let recent := counts.drop (counts.length - 3)
      let early := counts.take 3
      let lifecycle_stage : Stage :=
        if early.sum < recent.sum then .rising
        else if (recent.sum : ℚ) < (early.sum : ℚ) * (1/2) then .declining
        else if recent.contains max_count then .bursting
        else .stable
      let active_days := (counts.filter (fun c => 0 < c)).length
      let topic_type : TopicType :=
        if active_days ≤ 2 ∧ avg_count * 2 < (max_count : ℚ) then .flash
        else if (total_days : ℚ) * (6/10) ≤ (active_days : ℚ) then .sustained
        else .cyclical
      .ok lifecycle_data
        ⟨first_appearance, last_appearance, peak_date, max_count, active_days,
         pyRound avg_count 2, lifecycle_stage, topic_type⟩

/-! ## `AnalyticsTools.detect_viral_topics` (analytics.py 1623-1757) -/

/-- Today's keyword frequency Counter
(`current_keywords.update(self._extract_keywords(title))` per title). -/
def dayKeywordCounter (day : DayData) : List (Str × ℕ) :=
  (dayTitles day).foldl (fun acc t => counterUpdate acc (analytics_extract_keywords t 2)) []

/-- `keyword_titles[kw]`: every title appended once per occurrence of
`kw` in its extracted keyword list. -/
def dayKeywordTitles (day : DayData) (kw : Str) : List Str :=
  (dayTitles day).flatMap (fun t =>
    (analytics_extract_keywords t 2).filterMap (fun w => if w = kw then some t else none))

/-- One reported viral topic.  `growth_rate = none` is the literal
`"新话题"` ("new topic") label used when the baseline count is zero;
`alert_high` distinguishes the `"高"` and `"中"` alert levels. -/
structure ViralTopic where
  keyword : Str
  current_count : ℕ
  previous_count : ℕ
  growth_rate : Option ℚ
  sample_titles : List Str
  alert_high : Bool
deriving DecidableEq

inductive ViralResult
  | failure (code : ErrCode)
  | ok (viral_topics : List ViralTopic)
deriving DecidableEq

/-- The mixed sort key: `x["current_count"] if x["growth_rate"] == "新话题"
else x["growth_rate"]` (the stored, rounded growth). -/
def viralSortKey (v : ViralTopic) : ℚ :=
  match v.growth_rate with
  | none => (v.current_count : ℚ)
  | some g => g

/-- The per-keyword body of the `for keyword, current_count in
current_keywords.items()` loop of `detect_viral_topics`: a zero baseline
reports "new" (alert high, since `inf > 2*threshold`) exactly when the
current count is at least 5; otherwise report exactly when
`current/previous` reaches the threshold, alert high when the raw growth
exceeds `2*threshold`, the stored growth rounded to 2 places. -/
def viralEntry (day : DayData) (previous_keywords : List (Str × ℕ)) (threshold : ℚ)
    (p : Str × ℕ) : Option ViralTopic :=
  let kw := p.1
  let current_count := p.2
  let previous_count := countOf previous_keywords kw
  if previous_count = 0 then
    if 5 ≤ current_count then
      some ⟨kw, current_count, 0, none, (dayKeywordTitles day kw).take 3, true⟩
    else none
  else
    let growth_rate : ℚ := (current_count : ℚ) / (previous_count : ℚ)
    if threshold ≤ growth_rate then
      some ⟨kw, current_count, previous_count, some (pyRound growth_rate 2),
            (dayKeywordTitles day kw).take 3, decide (threshold * 2 < growth_rate)⟩
    else none

/-- `detect_viral_topics(threshold, time_window)`: threshold below 1.0
fails InvalidParameter; today's read failing DataNotFound propagates to
the failure envelope while a missing yesterday just yields an empty
baseline; a keyword with zero baseline is reported (as "new", alert high
since `inf > 2*threshold`) exactly when its current count is at least 5;
a keyword with a non-zero baseline is reported exactly when
`current/previous >= threshold`, with alert high when the raw growth
exceeds `2*threshold`; sorted by the mixed key descending.
(`time_window` is validated upstream to at most 72 and is
informational only.) -/
def detect_viral_topics (todayData : Option DayData) (yesterdayData : Option DayData)
    (threshold : ℚ) : ViralResult :=
  if threshold < 1 then .failure .invalidParameter
  else
    match todayData with
    | none => .failure .dataNotFound
    | some day =>
      let current_keywords := dayKeywordCounter day
      let previous_keywords :=
        match yesterdayData with
        | none => ([] : List (Str × ℕ))
        | some y => dayKeywordCounter y
      let viral_topics := current_keywords.filterMap (viralEntry day previous_keywords threshold)
      .ok (stableSort (fun x y => decide (viralSortKey y ≤ viralSortKey x)) viral_topics)

/-! ## `AnalyticsTools.predict_trending_topics` (analytics.py 1759-1919) -/

/-- Append today's count for a keyword to its history
(`keyword_trends[keyword].append(count)`, `defaultdict(list)` in
first-touch order). -/
def trendsAppend (a : List (Str × List ℕ)) (kw : Str) (c : ℕ) : List (Str × List ℕ) :=
  match a with
  | [] => [(kw, [c])]
  | (k, l) :: t => if k = kw then (k, l ++ [c]) :: t else (k, l) :: trendsAppend t kw c

/-- Record a whole day's keyword counter into the histories. -/
def trendsUpdate (acc : List (Str × List ℕ)) (counts : List (Str × ℕ)) :
    List (Str × List ℕ) :=
  counts.foldl (fun a p => trendsAppend a p.1 p.2) acc

/-- `all(trend_data[i] <= trend_data[i+1] for i in ...)`. -/
def isChainNondecr (l : List ℕ) : Bool :=
  (l.zip l.tail).all (fun p => p.1 ≤ p.2)

structure PredictedTopic where
  keyword : Str
  current_count : ℕ
  growth_rate : ℚ
  confidence : ℚ
  trend_data : List ℕ
  sample_titles : List Str
deriving DecidableEq

inductive PredictResult
  | failure (code : ErrCode)
  | ok (predicted_topics : List PredictedTopic) (total_predicted : ℕ)
deriving DecidableEq

/-- Lexicographic order on the `(confidence, growth_rate)` sort key. -/
def predKeyLe (x y : ℚ × ℚ) : Prop :=
  x.1 < y.1 ∨ (x.1 = y.1 ∧ x.2 ≤ y.2)

instance (x y : ℚ × ℚ) : Decidable (predKeyLe x y) := by
  unfold predKeyLe; infer_instance

/-- `predict_trending_topics(lookahead_hours, confidence_threshold)`:
the three prior days are read with `except DataNotFoundError: pass`
(a missing prior day is skipped), then today is read without protection —
a missing today raises DataNotFound, reported as the failure envelope.
Keywords with fewer than 2 history points are skipped; growth is
`(last-prev)/prev` when `prev > 0`, else 1.0 when `last >= 3` (otherwise
skip); candidates need growth > 0.3; confidence is 0.9 for a
monotonically non-decreasing history of at least 3 points, 0.7 for at
least 3 points otherwise, 0.6 for exactly 2 points; keep when confidence
reaches the threshold; sort by (confidence, growth) descending and cap
at 20.  (`lookahead_hours` is validated upstream to at most 48 and is
informational only.) -/
def predict_trending_topics (repo : Repo) (today : ℕ)
    (confidence_threshold : ℚ) : PredictResult :=
  if ¬ (0 ≤ confidence_threshold ∧ confidence_threshold ≤ 1) then
    .failure .invalidParameter
  else
    let trends0 := (([3, 2, 1] : List ℕ).foldl (fun acc daysAgo =>
      match lookupDay repo (today - daysAgo) with
      | none => acc
      | some day => trendsUpdate acc (dayKeywordCounter day)) [])
    match lookupDay repo today with
    | none => .failure .dataNotFound
    | some day =>
      let keyword_trends := trendsUpdate trends0 (dayKeywordCounter day)
      let predicted_topics := keyword_trends.filterMap (fun (p : Str × List ℕ) =>
        let td : List ℕ := p.2
        if td.length < 2 then none
        else
          let recent_value : ℕ := td.getLastD 0
          let previous_value : ℕ := td.getD (td.length - 2) 0
          let growthOpt : Option ℚ :=
            if previous_value = 0 then
              (if 3 ≤ recent_value then some 1 else none)
            else some (((recent_value : ℚ) - (previous_value : ℚ)) / (previous_value : ℚ))
          match growthOpt with
          | none => none
          | some growth_rate =>
            if (3/10 : ℚ) < growth_rate then
              let confidence : ℚ :=
                if 3 ≤ td.length then
                  (if isChainNondecr td then 9/10 else 7/10)
                else 6/10
              if confidence_threshold ≤ confidence then
                some (⟨p.1, recent_value, pyRound (growth_rate * 100) 2,
                       pyRound confidence 2, td, (dayKeywordTitles day p.1).take 3⟩
                  : PredictedTopic)
              else none
            else none)
      let sorted := stableSort (fun x y =>
        decide (predKeyLe (y.confidence, y.growth_rate) (x.confidence, x.growth_rate))) predicted_topics
      .ok (sorted.take 20) predicted_topics.length

/-! ## `AnalyticsTools.compare_platforms` (analytics.py 402-524) -/

/-- The per-platform accumulator of `compare_platforms` (keyed by
platform name; `unique_titles` is a Python set, only its size is
reported). -/
structure PlatAcc where
  total_news : ℕ
  topic_mentions : ℕ
  unique_titles : Finset Str
  top_keywords : List (Str × ℕ)
deriving DecidableEq

/-- `defaultdict` update in first-touch order. -/
def updPlat (l : List (Str × PlatAcc)) (name : Str) (f : PlatAcc → PlatAcc) :
    List (Str × PlatAcc) :=
  match l with
  | [] => [(name, f ⟨0, 0, ∅, []⟩)]
  | (k, v) :: t => if k = name then (k, f v) :: t else (k, v) :: updPlat t name f

/-- One title's contribution to its platform's accumulator. -/
def comparePlatTitle (topic : Option Str) (title : Str) (acc : PlatAcc) : PlatAcc :=
  { acc with
    total_news := acc.total_news + 1
    unique_titles := insert title acc.unique_titles
    topic_mentions :=
      acc.topic_mentions +
        (match topic with
         | some tp => if isSubstr (pyLower tp) (pyLower title) then 1 else 0
         | none => 0)
    top_keywords := counterUpdate acc.top_keywords (analytics_extract_keywords title 2) }

/-- The day loop of `compare_platforms` (missing day: `pass`). -/
def compareCollect (repo : Repo) (topic : Option Str) (startD endD : ℕ) :
    List (Str × PlatAcc) :=
  (List.range' startD (endD + 1 - startD)).foldl (fun acc d =>
    match lookupDay repo d with
    | none => acc
    | some day =>
      day.platforms.foldl (fun acc2 pl =>
        pl.2.foldl (fun acc3 t =>
          updPlat acc3 (platformName day.idToName pl.1) (comparePlatTitle topic t.1))
          acc2) acc) []

structure PlatformStats where
  total_news : ℕ
  topic_mentions : ℕ
  unique_titles : ℕ
  coverage_rate : ℚ
  top_keywords : List (Str × ℕ)
deriving DecidableEq

inductive CompareResult
  | failure (code : ErrCode)
  | ok (platform_stats : List (Str × PlatformStats))
      (unique_topics : List (Str × Finset Str)) (total_platforms : ℕ)
deriving DecidableEq

/-- `_find_unique_topics` (analytics.py 1965-1996): per platform, the
top-10 keywords absent from every other platform's top-10.  The source
reports `list(unique)[:5]` — at most five members in Python-set iteration
order, which is unspecified — so the embedding carries the full set. -/
def find_unique_topics (stats : List (Str × PlatAcc)) : List (Str × Finset Str) :=
  let platform_keywords := stats.map (fun p =>
    (p.1, ((mostCommon p.2.top_keywords 10).map (·.1)).toFinset))
  platform_keywords.filterMap (fun p =>
    let others := platform_keywords.foldl (fun acc q =>
      if q.1 = p.1 then acc else acc ∪ q.2) (∅ : Finset Str)
    let unique := p.2 \ others
    if unique = ∅ then none else some (p.1, unique))

/-- `compare_platforms` after validation: the serialized per-platform
stats (`coverage_rate` is 0 for a platform with no news) and the unique
topics. -/
def compare_platforms_run (repo : Repo) (topic : Option Str) (startD endD : ℕ) :
    CompareResult :=
  let stats := compareCollect repo topic startD endD
  let result_stats := stats.map (fun p =>
    let coverage : ℚ :=
      if 0 < p.2.total_news then
        (p.2.topic_mentions : ℚ) / (p.2.total_news : ℚ) * 100
      else 0
    (p.1, (⟨p.2.total_news, p.2.topic_mentions, p.2.unique_titles.card,
            pyRound coverage 2, mostCommon p.2.top_keywords 5⟩ : PlatformStats)))
  .ok result_stats (find_unique_topics stats) result_stats.length

/-- `compare_platforms(topic, date_range)` over the resolved range
(missing range defaults, upstream, to today): per-platform totals,
topic-mention coverage percentage, top-5 keywords, and the per-platform
unique topics. -/
def compare_platforms (repo : Repo) (topic : Option Str) (startD endD : ℕ) :
    CompareResult :=
  match topic with
  | some t =>
    if pyStrip t = [] then .failure .invalidParameter
    else compare_platforms_run repo (some (pyStrip t)) startD endD
  | none => compare_platforms_run repo none startD endD

/-! ## `AnalyticsTools.analyze_sentiment` (analytics.py 631-816) -/

structure SentimentItem where
  platform : Str
  title : Str
  ranks : List ℕ
  count : ℕ
  date : ℕ
deriving DecidableEq

inductive SentimentResult
  | failure (code : ErrCode)
  | ok (selected : List SentimentItem) (total_found : ℕ) (duplicates_removed : ℕ)
deriving DecidableEq

/-- The collection loop of `analyze_sentiment`: day by day (missing day:
`pass`), optional platform filter inside the reader, keep titles
containing the topic (when given), record `(platform_name, title, ranks,
len(ranks), date)`. -/
def sentimentCollect (repo : Repo) (topic : Option Str)
    (platforms : Option (List Str)) (startD endD : ℕ) : List SentimentItem :=
  (List.range' startD (endD + 1 - startD)).flatMap (fun d =>
    match lookupDay repo d with
    | none => []
    | some day =>
      (dayView day platforms).flatMap (fun pl =>
        pl.2.filterMap (fun t =>
          match topic with
          | some tp =>
            if isSubstr (pyLower tp) (pyLower t.1) then
              some (⟨platformName day.idToName pl.1, t.1, t.2.ranks,
                     t.2.ranks.length, d⟩ : SentimentItem)
            else none
          | none =>
            some ⟨platformName day.idToName pl.1, t.1, t.2.ranks,
                  t.2.ranks.length, d⟩)))

/-- The dedup step: first occurrence of each `platform::title` key wins,
merging later `ranks` into it and refreshing `count`. -/
def sentimentDedup (items : List SentimentItem) : List SentimentItem :=
  items.foldl (fun acc it =>
    if acc.any (fun e => e.platform = it.platform ∧ e.title = it.title) then
      acc.map (fun e =>
        if e.platform = it.platform ∧ e.title = it.title then
          { e with ranks := e.ranks ++ it.ranks, count := (e.ranks ++ it.ranks).length }
        else e)
    else acc ++ [it]) []

/-- `analyze_sentiment(topic, platforms, date_range, limit,
sort_by_weight)` over the resolved range (missing range defaults,
upstream, to today): collect, fail DataNotFound when nothing matched,
dedup merging rank histories, optionally sort by `calculate_news_weight`
descending, truncate to the validated limit.  The rendered `ai_prompt`
string is deterministic templating over `selected` (spec scope excludes
prompt text assembly), so the embedding returns the data it is built
from. -/
def analyze_sentiment_run (repo : Repo) (topic : Option Str)
    (platforms : Option (List Str)) (startD endD : ℕ) (limit : ℕ)
    (sort_by_weight : Bool) : SentimentResult :=
  let lim := validate_limit limit 50
  let all_news_items := sentimentCollect repo topic platforms startD endD
  if all_news_items = [] then .failure .dataNotFound
  else
    let deduplicated_news := sentimentDedup all_news_items
    let sorted :=
      if sort_by_weight then
        stableSort (fun x y =>
          decide (calculate_news_weight y.ranks y.count ≤ calculate_news_weight x.ranks x.count))
          deduplicated_news
      else deduplicated_news
    .ok (sorted.take lim) deduplicated_news.length
      (all_news_items.length - deduplicated_news.length)

def analyze_sentiment (repo : Repo) (topic : Option Str)
    (platforms : Option (List Str)) (startD endD : ℕ) (limit : ℕ)
    (sort_by_weight : Bool) : SentimentResult :=
  match topic with
  | some t =>
    if pyStrip t = [] then .failure .invalidParameter
    else analyze_sentiment_run repo (some (pyStrip t)) platforms startD endD limit sort_by_weight
  | none => analyze_sentiment_run repo none platforms startD endD limit sort_by_weight

/-! ## `AnalyticsTools.generate_summary_report` (analytics.py 1158-1336) -/

structure ReportTitle where
  title : Str
  platform : Str
  date : ℕ
deriving DecidableEq

structure SummaryStats where
  total_news : ℕ
  platforms_count : ℕ
  keywords_count : ℕ
  top_keyword : Option (Str × ℕ)
deriving DecidableEq

inductive ReportResult
  | failure (code : ErrCode)
  | ok (stats : SummaryStats) (top_keywords : List (Str × ℕ))
      (platforms_sorted : List (Str × ℕ)) (sample_news : List ReportTitle)
deriving DecidableEq

/-- Python `str` comparison (code-point lexicographic), as a Bool. -/
def strLt : Str → Str → Bool
  | [], [] => false
  | [], _ :: _ => true
  | _ :: _, [] => false
  | a :: as, b :: bs =>
    if a.toNat < b.toNat then true
    else if b.toNat < a.toNat then false
    else strLt as bs

def strLe (x y : Str) : Bool := !(strLt y x)

/-- The aggregation loop of `generate_summary_report` (missing day:
`pass`): the keyword counter, the per-platform-name news counter, and
the title list. -/
def summaryCollect (repo : Repo) (startD endD : ℕ) :
    List (Str × ℕ) × List (Str × ℕ) × List ReportTitle :=
  (List.range' startD (endD + 1 - startD)).foldl (fun acc d =>
    match lookupDay repo d with
    | none => acc
    | some day =>
      day.platforms.foldl (fun acc2 pl =>
        let pname := platformName day.idToName pl.1
        let acc3 := (acc2.1, counterAddN acc2.2.1 pname pl.2.length, acc2.2.2)
        pl.2.foldl (fun a t =>
          (counterUpdate a.1 (analytics_extract_keywords t.1 2),
           a.2.1,
           a.2.2 ++ [(⟨t.1, pname, d⟩ : ReportTitle)])) acc3) acc)
    ([], [], [])

/-- A title's sample-selection score: the summed counts of the top-10
keywords it contains (case-insensitive substring). -/
def summaryTitleScore (topKw : List (Str × ℕ)) (t : ReportTitle) : ℕ :=
  topKw.foldl (fun s p =>
    if isSubstr (pyLower p.1) (pyLower t.title) then s + p.2 else s) 0

/-- `generate_summary_report` over the resolved range (`daily` defaults
to today, `weekly` to the last 7 days): the statistics block, the top-10
keywords, the platform counts sorted descending, and the deterministic
top-5 sample selection sorted by `(-score, title)`.  The Markdown string
is deterministic templating over exactly these values (spec scope
excludes it). -/
def generate_summary_report (repo : Repo) (startD endD : ℕ) : ReportResult :=
  let col := summaryCollect repo startD endD
  let all_keywords := col.1
  let all_platforms_news := col.2.1
  let all_titles_list := col.2.2
  let topKw := mostCommon all_keywords 10
  let sorted_platforms := stableSort (fun x y => decide (y.2 ≤ x.2)) all_platforms_news
  let scored := all_titles_list.map (fun t => (t, summaryTitleScore topKw t))
  let sample := ((stableSort (fun x y =>
      decide (y.2 < x.2) || (decide (x.2 = y.2) && strLe x.1.title y.1.title)) scored).take 5).map (·.1)
  .ok ⟨all_titles_list.length, all_platforms_news.length, all_keywords.length,
       (mostCommon all_keywords 1).head?⟩
      topKw sorted_platforms sample

/-! ## Concrete scenario data used by witnesses and counterexamples -/

/-- "AI breakthrough today" (claim C2's stored title). -/
def c2title : Str :=
  ['A','I',' ','b','r','e','a','k','t','h','r','o','u','g','h',' ','t','o','d','a','y']

/-- The single stored date 2025-01-05 with platform `p1`. -/
def c2day : DayData := ⟨[(['p','1'], [(c2title, ⟨[1], [], []⟩)])], []⟩

def c2repo : Repo := [(20250105, c2day)]

/-- Five distinct titles containing the topic `"x"`. -/
def c8titles : List Str :=
  [['x','1'], ['x','2'], ['x','3'], ['x','4'], ['x','5']]

def c8day (n : ℕ) : DayData :=
  ⟨[(['p'], (c8titles.take n).map (fun t => (t, ⟨[1], [], []⟩)))], []⟩

/-- Seven consecutive days (100..106) whose per-day counts of titles
containing "x" are [0,0,0,5,3,2,1] (the first three days have no stored
snapshot, which counts as zero). -/
def c8repo : Repo := [(103, c8day 5), (104, c8day 3), (105, c8day 2), (106, c8day 1)]

/-- Claim C9's reference text "aa bb cc". -/
def c9ref : Str := ['a','a',' ','b','b',' ','c','c']

/-- "aa " followed by 201 x's.  The `x` run is one autojunk-popular
character longer than in `c9t2`, giving a combined score a hair below
`c9t2`'s, with both rounding to 0.1835. -/
def c9t1 : Str := ['a','a',' '] ++ List.replicate 201 'x'

def c9t2 : Str := ['a','a',' '] ++ List.replicate 200 'x'

def c9day : DayData := ⟨[(['p'], [(c9t1, ⟨[1], [], []⟩), (c9t2, ⟨[1], [], []⟩)])], []⟩

def c9repo : Repo := [(50, c9day)]

/-- A day on which keyword "hot" occurs 5 times and keyword "warm" 4
times (titles are distinct dict keys). -/
def c7day : DayData :=
  ⟨[(['p'],
     [(['h','o','t',' ','w','a','r','m',' ','t','1'], ⟨[1], [], []⟩),
      (['h','o','t',' ','w','a','r','m',' ','t','2'], ⟨[2], [], []⟩),
      (['h','o','t',' ','w','a','r','m',' ','t','3'], ⟨[3], [], []⟩),
      (['h','o','t',' ','w','a','r','m',' ','t','4'], ⟨[4], [], []⟩),
      (['h','o','t',' ','t','5'], ⟨[5], [], []⟩)])], []⟩

/-- A repository holding data only on day 9 (used to show
`predict_trending_topics` hard-fails on a missing today = 10). -/
def c5repo : Repo := [(9, c8day 1)]

/-- The empty day: what a date with a stored-but-empty snapshot yields. -/
def emptyDay : DayData := ⟨[], []⟩

/-- Key uniqueness and value positivity of the ordered counters. -/
def CounterWF {α : Type} [DecidableEq α] (l : List (α × ℕ)) : Prop :=
  (l.map (·.1)).Nodup ∧ ∀ p ∈ l, 0 < p.2

/-- The invariant of the `find_longest_match` DP loop before processing
row `i`: row values chain inside the `[blo, bhi) x [alo, i)` window and
the best match so far lies inside it. -/
def FlmOK (alo blo bhi i : ℕ) (st : FlmState) : Prop :=
  (∀ x, st.j2len x ≠ 0 → st.j2len x + blo ≤ x + 1 ∧ st.j2len x + alo ≤ i) ∧
  alo ≤ st.besti ∧ blo ≤ st.bestj ∧
  st.besti + st.bestsize ≤ i ∧ st.bestj + st.bestsize ≤ bhi

/-- Position `x` of `b` survives into `b2j` on a self-match: it is in
range and its character is not autojunk-popular. -/
def visChar (s : Str) (x : ℕ) : Bool :=
  decide (x < s.length) && !(isPopular s (s.getD x ' '))

/-- Length of the run of `b2j`-visible positions ending at `x`. -/
def visRun (s : Str) : ℕ → ℕ
  | 0 => if visChar s 0 then 1 else 0
  | x + 1 => if visChar s (x + 1) then visRun s x + 1 else 0

/-- The diagonal invariant of the self-match DP (with autojunk): before
row `i` the best match is a diagonal segment inside the first `i` rows
whose size dominates every visible run seen so far, and the carried row
values chain inside visible runs on both sides. -/
def SelfInv (s : Str) (i : ℕ) (st : FlmState) : Prop :=
  st.besti = st.bestj ∧
  st.besti + st.bestsize ≤ i ∧
  (∀ x, x < i → visRun s x ≤ st.bestsize) ∧
  (∀ x, st.j2len x ≠ 0 → st.j2len x ≤ visRun s x) ∧
  (∀ x, st.j2len x ≠ 0 → st.j2len x ≤ visRun s (i - 1) ∧ 1 ≤ i) ∧
  (1 ≤ i → st.j2len (i - 1) = visRun s (i - 1))

/-! # Theorems -/

theorem rankScore_le_eleven (r : ℕ) : (11 : ℚ) - min (r : ℚ) 10 ≤ 11 := by
  have h0 : (0 : ℚ) ≤ min (r : ℚ) 10 := le_min (by positivity) (by norm_num)
  linarith

theorem rankScore_nonneg (r : ℕ) : (0 : ℚ) ≤ 11 - min (r : ℚ) 10 := by
  have h : min (r : ℚ) 10 ≤ 10 := min_le_right _ _
  linarith

theorem sum_rankScores_le (ranks : List ℕ) :
    (ranks.map (fun r : ℕ => 11 - min (r : ℚ) 10)).sum ≤ 11 * ranks.length := by
  induction ranks with
  | nil => simp
  | cons r t ih =>
      have hcast : ((r :: t).length : ℚ) = (t.length : ℚ) + 1 := by
        simp [List.length_cons]
      rw [List.map_cons, List.sum_cons, hcast]
      have := rankScore_le_eleven r
      linarith

theorem sum_rankScores_nonneg (ranks : List ℕ) :
    0 ≤ (ranks.map (fun r : ℕ => 11 - min (r : ℚ) 10)).sum := by
  induction ranks with
  | nil => simp
  | cons r t ih =>
      rw [List.map_cons, List.sum_cons]
      have := rankScore_nonneg r
      linarith

/-- Claim C1: `calculate_news_weight` is a pure function of its record
(purity is intrinsic to the embedding); for every record — whose `count`
field is the derived occurrence count `len(ranks)`, as at every call site
— it returns a rational in [0,100], it returns 0 on an empty ranks list,
and on a non-empty ranks list it equals
0.6·mean(11 − min(rank,10)) + 0.3·(min(count,10)·10) +
0.1·((number of ranks at most rank_threshold) / count · 100). -/
theorem c1_calculate_news_weight (ranks : List ℕ) (count rank_threshold : ℕ)
    (hc : count = ranks.length) :
    (ranks = [] → calculate_news_weight ranks count rank_threshold = 0)
    ∧ (ranks ≠ [] → calculate_news_weight ranks count rank_threshold
        = newsWeightSpecFormula ranks count rank_threshold)
    ∧ 0 ≤ calculate_news_weight ranks count rank_threshold
    ∧ calculate_news_weight ranks count rank_threshold ≤ 100 := by
  by_cases hnil : ranks = []
  · subst hnil
    refine ⟨fun _ => by simp [calculate_news_weight], fun h => absurd rfl h, ?_, ?_⟩
    · simp [calculate_news_weight]
    · simp [calculate_news_weight]
  · have hlen : 0 < ranks.length := List.length_pos.mpr hnil
    have hn : (0 : ℚ) < (ranks.length : ℚ) := by exact_mod_cast hlen
    have hsum_le := sum_rankScores_le ranks
    have hsum_nn := sum_rankScores_nonneg ranks
    have hfil : ((ranks.filter (fun r => r ≤ rank_threshold)).length : ℚ)
        ≤ (ranks.length : ℚ) := by
      exact_mod_cast List.length_filter_le _ ranks
    have hfil_nn : (0 : ℚ) ≤ ((ranks.filter (fun r => r ≤ rank_threshold)).length : ℚ) := by
      positivity
    have hmin_le : min ((count : ℚ)) 10 ≤ 10 := min_le_right _ _
    have hmin_nn : (0 : ℚ) ≤ min ((count : ℚ)) 10 :=
      le_min (by positivity) (by norm_num)
    have hrw : (ranks.map (fun r : ℕ => 11 - min (r : ℚ) 10)).sum / (ranks.length : ℚ) ≤ 11 :=
      (div_le_iff₀ hn).mpr (by linarith)
    have hrw_nn : 0 ≤ (ranks.map (fun r : ℕ => 11 - min (r : ℚ) 10)).sum / (ranks.length : ℚ) :=
      div_nonneg hsum_nn (le_of_lt hn)
    have hhot : ((ranks.filter (fun r => r ≤ rank_threshold)).length : ℚ)
        / (ranks.length : ℚ) ≤ 1 := (div_le_one hn).mpr hfil
    have hhot_nn : 0 ≤ ((ranks.filter (fun r => r ≤ rank_threshold)).length : ℚ)
        / (ranks.length : ℚ) := div_nonneg hfil_nn (le_of_lt hn)
    refine ⟨fun h => absurd h hnil, fun _ => ?_, ?_, ?_⟩
    · simp only [calculate_news_weight, newsWeightSpecFormula, if_neg hnil, hc]
      ring
    · simp only [calculate_news_weight, if_neg hnil]
      nlinarith
    · simp only [calculate_news_weight, if_neg hnil]
      nlinarith

/-- Claim C3 (counterexample): at `query = "a!"`, `text = "ax"`,
`threshold = 0.6`, the query's extracted keyword set is empty ("a" is
shorter than `min_length = 2`), and `_fuzzy_match` returns `(False, 0.0)`
while the claim's three-tier decision yields `(False, 0.5)` — the tier-2
similarity.  So the claim as stated is false. -/
theorem c3_fuzzy_match_counterexample :
    fuzzy_match ['a','!'] ['a','x'] (3/5) = (false, 0)
    ∧ fuzzyMatchClaimTiers ['a','!'] ['a','x'] (3/5) = (false, 1/2)
    ∧ fuzzy_match ['a','!'] ['a','x'] (3/5)
        ≠ fuzzyMatchClaimTiers ['a','!'] ['a','x'] (3/5) := by
  refine ⟨by decide, by decide, by decide⟩

/-- Claim C3 (amended): for every query, text and threshold,
`_fuzzy_match` implements the three-tier decision amended with the
empty-keyword-set short-circuit `(not matched, 0.0)`. -/
theorem c3_fuzzy_match_amended (query text : Str) (threshold : ℚ) :
    fuzzy_match query text threshold = fuzzyMatchAmendedTiers query text threshold := rfl

/-- Witness for C1 at the concrete record `ranks = [1,2,12]`, `count = 3`,
`rank_threshold = 5`. -/
theorem c1_calculate_news_weight_witness :
    (([1,2,12] : List ℕ) = [] → calculate_news_weight [1,2,12] 3 5 = 0)
    ∧ (([1,2,12] : List ℕ) ≠ [] → calculate_news_weight [1,2,12] 3 5
        = newsWeightSpecFormula [1,2,12] 3 5)
    ∧ 0 ≤ calculate_news_weight [1,2,12] 3 5
    ∧ calculate_news_weight [1,2,12] 3 5 ≤ 100 :=
  c1_calculate_news_weight [1,2,12] 3 5 (by decide)

/-- Helper: all-zero day counts make every derived list trivial. -/
theorem stableSort_nil {α : Type} (le : α → α → Bool) : stableSort le [] = [] := rfl

theorem map_zero_sum (l : List ℕ) : (l.map (fun _ => (0 : ℕ))).sum = 0 := by
  induction l with
  | nil => simp
  | cons a t ih => simp [ih]

theorem map_zero_find (l : List ℕ) :
    (l.map (fun _ => (0 : ℕ))).find? (fun c => 0 < c) = none := by
  induction l with
  | nil => simp
  | cons a t ih => simpa using ih

theorem foldl_max_replicate_zero (n acc : ℕ) :
    List.foldl max acc (List.replicate n 0) = acc := by
  induction n generalizing acc with
  | zero => simp
  | succ k ih => simp [List.replicate_succ, ih]

theorem map_zero_foldl_max (l : List ℕ) (acc : ℕ) :
    (l.map (fun _ => (0 : ℕ))).foldl max acc = acc := by
  induction l generalizing acc with
  | nil => simp
  | cons a t ih => simpa using ih acc

/-- Claim C2: with no date range, `search_news_unified` resolves to the
single most recent date having repository data (never the calendar
today); an entirely empty repository yields the `NO_DATA_AVAILABLE`
failure envelope; and in the concrete scenario — one stored date
2025-01-05, platform p1, title "AI breakthrough today", query "AI",
keyword mode — the call resolves to 2025-01-05 and returns exactly one
match with similarity score 1.0. -/
theorem c2_search_default_date (repo : Repo) (query : Str) (mode : SearchMode)
    (platforms : Option (List Str)) (limit : ℕ) (sortBy : SortBy) (threshold : ℚ)
    (hq : pyStrip query ≠ []) :
    (latestDate repo = none →
      search_news_unified repo query mode none platforms limit sortBy threshold
        = .failure .noDataAvailable)
    ∧ (∀ d, latestDate repo = some d →
        search_news_unified repo query mode none platforms limit sortBy threshold
          = search_news_unified_core repo (pyStrip query) mode d d platforms
              (validate_limit limit 50) sortBy (max 0 (min 1 threshold)))
    ∧ search_news_unified c2repo ['A','I'] .keyword none none 50 .relevance (6/10)
        = .ok 20250105 20250105 1
            [⟨c2title, ['p','1'], ['p','1'], 20250105, 1, [1], 1, 1⟩] := by
  refine ⟨fun h => ?_, fun d h => ?_, by decide⟩
  · simp [search_news_unified, hq, h]
  · simp [search_news_unified, hq, h]

/-- Witness for C2 at the empty repository and at a one-date repository,
query "AI". -/
theorem c2_search_default_date_witness :
    (latestDate ([] : Repo) = none →
      search_news_unified [] ['A','I'] .keyword none none 50 .relevance (6/10)
        = .failure .noDataAvailable)
    ∧ (∀ d, latestDate ([] : Repo) = some d →
        search_news_unified [] ['A','I'] .keyword none none 50 .relevance (6/10)
          = search_news_unified_core [] (pyStrip ['A','I']) .keyword d d none
              (validate_limit 50 50) .relevance (max 0 (min 1 (6/10))))
    ∧ search_news_unified c2repo ['A','I'] .keyword none none 50 .relevance (6/10)
        = .ok 20250105 20250105 1
            [⟨c2title, ['p','1'], ['p','1'], 20250105, 1, [1], 1, 1⟩] :=
  c2_search_default_date [] ['A','I'] .keyword none 50 .relevance (6/10) (by decide)

/-- Claim C10: when no title matches, `search_news_unified` (over a
resolved range that does include days with repository data) returns the
empty success envelope, not a failure; `find_similar_news`, in contrast,
fails with DataNotFound when nothing clears its threshold. -/
theorem c10_empty_results_envelopes
    (repo : Repo) (query : Str) (mode : SearchMode) (startD endD : ℕ)
    (platforms : Option (List Str)) (limit : ℕ) (sortBy : SortBy) (threshold : ℚ)
    (day : DayData) (ref : Str) (threshold2 : ℚ) (limit2 : ℕ)
    (hdata : ∃ d ∈ List.range' startD (endD + 1 - startD), lookupDay repo d ≠ none)
    (hnomatch : searchCollect repo query mode threshold platforms startD endD = [])
    (href : pyStrip ref ≠ []) (hth : 0 ≤ threshold2 ∧ threshold2 ≤ 1)
    (hkept : similarCandidates day (pyStrip ref) threshold2 = []) :
    search_news_unified_core repo query mode startD endD platforms limit sortBy threshold
      = .emptyOk query startD endD
    ∧ find_similar_news (some day) ref threshold2 limit2 = .failure .dataNotFound := by
  constructor
  · simp [search_news_unified_core, hnomatch]
  · simp [find_similar_news, href, hth.1, hth.2, hkept, stableSort_nil]

/-- Witness for C10: the one-date repository of C2 with a query matching
no stored title, and a similarity reference matching nothing. -/
theorem c10_empty_results_envelopes_witness :
    search_news_unified_core c2repo ['z','q'] .keyword 20250105 20250105 none 50
        .relevance (6/10)
      = .emptyOk ['z','q'] 20250105 20250105
    ∧ find_similar_news (some c2day) ['n','o','p','e'] (9/10) 50
        = .failure .dataNotFound :=
  c10_empty_results_envelopes c2repo ['z','q'] .keyword 20250105 20250105 none 50
    .relevance (6/10) c2day ['n','o','p','e'] (9/10) 50
    (by decide) (by decide) (by decide) (by decide) (by decide)

/-- Claim C4 (counterexample): over the two-day range 7..8 with zero
matches on both days, the trend statistics carry `change_rate = 0` but
`peak_time = 2nd-arg-of-some 7` — the first day of the range — not null,
so the claim as stated is false. -/
theorem c4_trend_counterexample :
    get_topic_trend_analysis ([] : Repo) ['z','z'] 7 8
      = .ok [⟨7, 0, []⟩, ⟨8, 0, []⟩] ⟨0, 0, 0, some 7, 0⟩ .flat
    ∧ (∀ d ∈ List.range' 7 2, topicDayCount ([] : Repo) ['z','z'] d = 0)
    ∧ (some 7 ≠ (none : Option ℕ)) := by
  refine ⟨by decide, by decide, by decide⟩

/-- Claim C4 (amended): for every topic and date range on which the topic
matches zero titles on every day, the trend analysis returns
`change_rate = 0`, and `peak_time` is null exactly when the range is a
single day — for a longer range it is the range's first day. -/
theorem c4_trend_all_zero (repo : Repo) (topic : Str) (startD endD : ℕ)
    (hs : startD ≤ endD) (htp : pyStrip topic ≠ [])
    (hzero : ∀ d ∈ List.range' startD (endD + 1 - startD),
        topicDayCount repo (pyStrip topic) d = 0) :
    get_topic_trend_analysis repo topic startD endD
      = .ok ((List.range' startD (endD + 1 - startD)).map (fun d => ⟨d, 0, []⟩))
          ⟨0, 0, 0, if startD = endD then none else some startD, 0⟩ .flat := by
  have hnil : ∀ d ∈ List.range' startD (endD + 1 - startD),
      topicDayMatches repo (pyStrip topic) d = [] := by
    intro d hd
    exact List.eq_nil_of_length_eq_zero (hzero d hd)
  have htd : (List.range' startD (endD + 1 - startD)).map
      (fun d => (⟨d, topicDayCount repo (pyStrip topic) d,
                  (topicDayMatches repo (pyStrip topic) d).take 3⟩ : TrendPoint))
      = (List.range' startD (endD + 1 - startD)).map
          (fun d => (⟨d, 0, []⟩ : TrendPoint)) := by
    refine List.map_congr_left (fun d hd => ?_)
    rw [hzero d hd, hnil d hd]
    rfl
  have hcounts : ((List.range' startD (endD + 1 - startD)).map
      (fun d => (⟨d, 0, []⟩ : TrendPoint))).map (·.count)
      = (List.range' startD (endD + 1 - startD)).map (fun _ => (0 : ℕ)) := by
    rw [List.map_map]; rfl
  have hroundn : ∀ n : ℕ, pyRound (((0 : ℕ) : ℚ) / (n : ℚ)) 2 = 0 := by
    intro n; rw [Nat.cast_zero, zero_div]; decide
  obtain ⟨m, hm⟩ : ∃ m, endD + 1 - startD = m + 1 := ⟨endD - startD, by omega⟩
  have hdays : List.range' startD (endD + 1 - startD)
      = startD :: List.range' (startD + 1) m := by
    rw [hm, List.range'_succ]
  simp only [get_topic_trend_analysis, if_neg htp]
  rw [htd, hcounts, hdays]
  rcases Nat.eq_or_lt_of_le hs with heq | hlt
  · have hm0 : m = 0 := by omega
    subst heq hm0
    simp only [List.range'_zero, List.map_cons, List.map_nil, List.length_cons,
      List.length_nil, List.sum_cons, List.sum_nil]
    norm_num
    decide
  · have hif : (if startD = endD then (none : Option ℕ) else some startD) = some startD := by
      rw [if_neg (by omega)]
    rw [hif]
    obtain ⟨m', hm'⟩ : ∃ m', m = m' + 1 := ⟨m - 1, by omega⟩
    subst hm'
    simp only [List.range'_succ, List.map_cons, List.length_cons, List.sum_cons,
      List.find?_cons, List.length_range']
    norm_num [map_zero_sum, map_zero_find, map_zero_foldl_max]
    rw [foldl_max_replicate_zero]
    refine ⟨⟨fun _ => by decide, rfl, ?_, by decide⟩, by decide⟩
    simp [List.indexOf_cons_self]

/-- Witness for C4 at the empty repository over the two-day range 7..8,
topic "zz". -/
theorem c4_trend_all_zero_witness :
    get_topic_trend_analysis ([] : Repo) ['z','z'] 7 8
      = .ok ((List.range' 7 (8 + 1 - 7)).map (fun d => ⟨d, 0, []⟩))
          ⟨0, 0, 0, if 7 = 8 then none else some 7, 0⟩ .flat :=
  c4_trend_all_zero [] ['z','z'] 7 8 (by decide) (by decide) (by decide)

/-- Claim C8 (counterexample): on per-day counts [0,0,0,5,3,2,1] the code
classifies the lifecycle stage as rising (`sum(last 3) = 6 >
sum(first 3) = 0` fires the first branch), not declining; so the claim's
expected "declining" is false.  The returned `lifecycle_data` exhibits
exactly those counts. -/
theorem c8_lifecycle_counterexample :
    analyze_topic_lifecycle c8repo ['x'] 100 106
      = .ok [(100,0),(101,0),(102,0),(103,5),(104,3),(105,2),(106,1)]
          ⟨some 103, some 106, 103, 5, 4, 11/4, .rising, .cyclical⟩
    ∧ Stage.rising ≠ Stage.declining := by
  refine ⟨by decide, by decide⟩

/-- Claim C8 (amended): on the 7-day scenario with daily counts
[0,0,0,5,3,2,1], `analyze_topic_lifecycle` reports `first_appearance` on
day 4 of the range, `active_days = 4`, and `lifecycle_stage` "rising"
(not "declining": a zero first-3-days sum makes `sum(last 3) >
sum(first 3)` fire first). -/
theorem c8_lifecycle_scenario :
    ∃ a : LifecycleAnalysis,
      analyze_topic_lifecycle c8repo ['x'] 100 106
        = .ok [(100,0),(101,0),(102,0),(103,5),(104,3),(105,2),(106,1)] a
      ∧ a.first_appearance = some 103
      ∧ a.active_days = 4
      ∧ a.lifecycle_stage = .rising := by
  exact ⟨⟨some 103, some 106, 103, 5, 4, 11/4, .rising, .cyclical⟩,
    by decide, rfl, rfl, rfl⟩

theorem mem_insertStable {α : Type} (le : α → α → Bool) (x a : α) (l : List α) :
    a ∈ insertStable le x l ↔ a = x ∨ a ∈ l := by
  induction l with
  | nil => simp [insertStable]
  | cons y t ih =>
    simp only [insertStable]
    split
    · rw [List.mem_cons, ih, List.mem_cons]
      tauto
    · rw [List.mem_cons, List.mem_cons]

theorem mem_stableSort {α : Type} (le : α → α → Bool) (a : α) (l : List α) :
    a ∈ stableSort le l ↔ a ∈ l := by
  suffices h : ∀ acc, a ∈ l.foldl (fun acc x => insertStable le x acc) acc ↔ a ∈ acc ∨ a ∈ l by
    simpa [stableSort] using h []
  induction l with
  | nil => intro acc; simp
  | cons x t ih =>
    intro acc
    simp only [List.foldl_cons]
    rw [ih (insertStable le x acc)]
    simp only [mem_insertStable, List.mem_cons]
    tauto

theorem countOf_counterAddN {α : Type} [DecidableEq α] (l : List (α × ℕ)) (w k : α) (n : ℕ) :
    countOf (counterAddN l w n) k = countOf l k + (if k = w then n else 0) := by
  induction l with
  | nil =>
    by_cases h : k = w
    · subst h
      simp [counterAddN, countOf]
    · have h' : ¬ (w = k) := fun e => h e.symm
      simp [counterAddN, countOf, h, h']
  | cons a t ih =>
    obtain ⟨ka, va⟩ := a
    by_cases hw : ka = w
    · subst hw
      by_cases hk : ka = k
      · subst hk
        simp [counterAddN, countOf]
      · have hk' : ¬ (k = ka) := fun e => hk e.symm
        simp [counterAddN, countOf, hk, hk']
    · by_cases hk : ka = k
      · subst hk
        simp [counterAddN, countOf, hw]
      · have h1 : countOf ((ka, va) :: counterAddN t w n) k = countOf (counterAddN t w n) k := by
          simp [countOf, hk]
        have h2 : countOf ((ka, va) :: t) k = countOf t k := by
          simp [countOf, hk]
        simp only [counterAddN, if_neg hw]
        rw [h1, h2, ih]

theorem counterAddN_keys {α : Type} [DecidableEq α] (l : List (α × ℕ)) (w : α) (n : ℕ) :
    (counterAddN l w n).map (·.1)
      = if w ∈ l.map (·.1) then l.map (·.1) else l.map (·.1) ++ [w] := by
  induction l with
  | nil => simp [counterAddN]
  | cons a t ih =>
    obtain ⟨ka, va⟩ := a
    by_cases hw : ka = w
    · subst hw
      simp [counterAddN]
    · have hw' : ¬ (w = ka) := fun e => hw e.symm
      simp only [counterAddN, if_neg hw, List.map_cons, ih]
      by_cases hmem : w ∈ t.map (·.1)
      · simp [hmem, hw']
      · simp [hmem, hw']

theorem counterAddN_vals {α : Type} [DecidableEq α] {l : List (α × ℕ)} (w : α) {n : ℕ}
    (hl : ∀ p ∈ l, 0 < p.2) (hn : 0 < n) : ∀ p ∈ counterAddN l w n, 0 < p.2 := by
  induction l with
  | nil =>
    intro p hp
    simp only [counterAddN, List.mem_singleton] at hp
    subst hp
    exact hn
  | cons a t ih =>
    obtain ⟨ka, va⟩ := a
    intro p hp
    by_cases hw : ka = w
    · subst hw
      have hp2 : p ∈ (ka, va + n) :: t := by
        simpa [counterAddN] using hp
      rcases List.mem_cons.mp hp2 with hq | hq
      · rw [hq]
        have := hl (ka, va) (by simp)
        simp only at this ⊢
        omega
      · exact hl p (by simp [hq])
    · have hp2 : p ∈ (ka, va) :: counterAddN t w n := by
        simpa [counterAddN, hw] using hp
      rcases List.mem_cons.mp hp2 with hq | hq
      · rw [hq]
        exact hl _ (by simp)
      · exact ih (fun q hq2 => hl q (by simp [hq2])) p hq

theorem counterWF_counterAddN {α : Type} [DecidableEq α] {l : List (α × ℕ)} (w : α)
    {n : ℕ} (h : CounterWF l) (hn : 0 < n) : CounterWF (counterAddN l w n) := by
  refine ⟨?_, counterAddN_vals w h.2 hn⟩
  rw [counterAddN_keys]
  by_cases hmem : w ∈ l.map (·.1)
  · simpa [hmem] using h.1
  · rw [if_neg hmem]
    refine List.Nodup.append h.1 (List.nodup_singleton w) ?_
    intro x hx hxw
    exact hmem ((List.mem_singleton.mp hxw) ▸ hx)

theorem counterWF_counterUpdate {α : Type} [DecidableEq α] {l : List (α × ℕ)}
    (ws : List α) (h : CounterWF l) : CounterWF (counterUpdate l ws) := by
  induction ws generalizing l with
  | nil => exact h
  | cons w t ih => exact ih (counterWF_counterAddN w h (by norm_num))

theorem counterWF_nil {α : Type} [DecidableEq α] : CounterWF ([] : List (α × ℕ)) :=
  ⟨List.nodup_nil, by simp⟩

theorem counterWF_dayKeywordCounter (day : DayData) : CounterWF (dayKeywordCounter day) := by
  unfold dayKeywordCounter
  generalize dayTitles day = ts
  induction ts using List.reverseRecOn with
  | nil => exact counterWF_nil
  | append_singleton t x ih =>
    rw [List.foldl_append]
    exact counterWF_counterUpdate _ ih

theorem countOf_eq_of_mem {α : Type} [DecidableEq α] {l : List (α × ℕ)}
    (h : CounterWF l) {p : α × ℕ} (hp : p ∈ l) : countOf l p.1 = p.2 := by
  induction l with
  | nil => simp at hp
  | cons a t ih =>
    obtain ⟨ka, va⟩ := a
    rcases List.mem_cons.mp hp with rfl | hp2
    · simp [countOf]
    · have hne : ¬ (ka = p.1) := by
        intro he
        refine (List.nodup_cons.mp h.1).1 ?_
        exact he ▸ (List.mem_map.mpr ⟨p, hp2, rfl⟩)
      have hstep : countOf ((ka, va) :: t) p.1 = countOf t p.1 := by
        simp [countOf, hne]
      rw [hstep]
      exact ih ⟨(List.nodup_cons.mp h.1).2, fun q hq => h.2 q (by simp [hq])⟩ hp2

theorem exists_mem_of_countOf_pos {α : Type} [DecidableEq α] {l : List (α × ℕ)} {k : α}
    (h : 0 < countOf l k) : (k, countOf l k) ∈ l := by
  induction l with
  | nil => simp [countOf] at h
  | cons a t ih =>
    obtain ⟨ka, va⟩ := a
    by_cases hk : ka = k
    · subst hk
      have hc : countOf ((ka, va) :: t) ka = va := by simp [countOf]
      rw [hc]
      exact List.mem_cons_self _ _
    · have hc : countOf ((ka, va) :: t) k = countOf t k := by simp [countOf, hk]
      rw [hc] at h ⊢
      exact List.mem_cons_of_mem _ (ih h)

theorem viralEntry_eq_some {day : DayData} {prevs : List (Str × ℕ)} {th : ℚ}
    {p : Str × ℕ} {e : ViralTopic} (h : viralEntry day prevs th p = some e) :
    e.keyword = p.1 ∧ e.current_count = p.2 ∧ e.previous_count = countOf prevs p.1 ∧
      e.growth_rate = (if countOf prevs p.1 = 0 then none
        else some (pyRound ((p.2 : ℚ) / (countOf prevs p.1 : ℚ)) 2)) := by
  simp only [viralEntry] at h
  split_ifs at h with h1 h2 h3
  · obtain rfl := Option.some.inj h
    simp [h1]
  · obtain rfl := Option.some.inj h
    simp [h1]

/-- C7: in `detect_viral_topics` (with a valid threshold, i.e. `1 ≤ threshold`),
a keyword whose yesterday baseline count is zero — including when yesterday's
snapshot is missing, which yields an empty baseline — is reported, flagged
"new" (`growth_rate = none`), exactly when its current count is at least 5
(so a count of 4 is not reported); and a keyword with a non-zero baseline is
reported exactly when `current_count / previous_count ≥ threshold`, with the
stored growth rate being that ratio rounded to 2 places. -/
theorem c7_viral_reporting (day : DayData) (yData : Option DayData)
    (threshold : ℚ) (hth : 1 ≤ threshold) (k : Str) :
    ∃ lst, detect_viral_topics (some day) yData threshold = .ok lst ∧
      ((countOf ((yData.map dayKeywordCounter).getD []) k = 0 →
        (((∃ e ∈ lst, e.keyword = k) ↔ 5 ≤ countOf (dayKeywordCounter day) k) ∧
         ∀ e ∈ lst, e.keyword = k → e.growth_rate = none)) ∧
       (0 < countOf ((yData.map dayKeywordCounter).getD []) k →
        (((∃ e ∈ lst, e.keyword = k) ↔
            threshold ≤ (countOf (dayKeywordCounter day) k : ℚ)
              / (countOf ((yData.map dayKeywordCounter).getD []) k : ℚ)) ∧
         ∀ e ∈ lst, e.keyword = k →
           e.growth_rate = some (pyRound ((countOf (dayKeywordCounter day) k : ℚ)
              / (countOf ((yData.map dayKeywordCounter).getD []) k : ℚ)) 2)))) := by
  have hnl : ¬ threshold < 1 := not_lt.mpr hth
  have hdet : detect_viral_topics (some day) yData threshold
      = .ok (stableSort (fun x y => decide (viralSortKey y ≤ viralSortKey x))
          ((dayKeywordCounter day).filterMap
            (viralEntry day ((yData.map dayKeywordCounter).getD []) threshold))) := by
    cases yData with
    | none => simp [detect_viral_topics, hnl]
    | some y => simp [detect_viral_topics, hnl]
  refine ⟨_, hdet, ?_, ?_⟩
  all_goals
    intro hprev
  all_goals
    have hWF : CounterWF (dayKeywordCounter day) := counterWF_dayKeywordCounter day
  all_goals
    have hmem : ∀ e : ViralTopic,
        (e ∈ stableSort (fun x y => decide (viralSortKey y ≤ viralSortKey x))
          ((dayKeywordCounter day).filterMap
            (viralEntry day ((yData.map dayKeywordCounter).getD []) threshold))) ↔
        ∃ p ∈ dayKeywordCounter day,
          viralEntry day ((yData.map dayKeywordCounter).getD []) threshold p = some e := by
      intro e
      rw [mem_stableSort, List.mem_filterMap]
  · -- prev = 0 branch
    constructor
    · constructor
      · rintro ⟨e, he, hek⟩
        obtain ⟨p, hp, hpe⟩ := (hmem e).mp he
        obtain ⟨hkey, hcc, hpc, hgr⟩ := viralEntry_eq_some hpe
        rw [hkey] at hek
        have hc : countOf (dayKeywordCounter day) p.1 = p.2 := countOf_eq_of_mem hWF hp
        have hpz : countOf ((yData.map dayKeywordCounter).getD []) p.1 = 0 := by
          rw [hek]; exact hprev
        simp only [viralEntry, hpz, if_pos] at hpe
        rw [← hek, hc]
        by_cases h5 : 5 ≤ p.2
        · exact h5
        · simp [h5] at hpe
      · intro h5
        have hpos : 0 < countOf (dayKeywordCounter day) k := by omega
        have hkmem : (k, countOf (dayKeywordCounter day) k) ∈ dayKeywordCounter day :=
          exists_mem_of_countOf_pos hpos
        refine ⟨⟨k, countOf (dayKeywordCounter day) k, 0, none,
          (dayKeywordTitles day k).take 3, true⟩, ?_, rfl⟩
        apply (hmem _).mpr
        exact ⟨(k, countOf (dayKeywordCounter day) k), hkmem,
          by simp [viralEntry, hprev, h5]⟩
    · intro e he hek
      obtain ⟨p, hp, hpe⟩ := (hmem e).mp he
      obtain ⟨hkey, hcc, hpc, hgr⟩ := viralEntry_eq_some hpe
      rw [hkey] at hek
      rw [hgr, hek, if_pos hprev]
  · -- prev > 0 branch
    have hprev0 : ¬ countOf ((yData.map dayKeywordCounter).getD []) k = 0 := by omega
    constructor
    · constructor
      · rintro ⟨e, he, hek⟩
        obtain ⟨p, hp, hpe⟩ := (hmem e).mp he
        obtain ⟨hkey, hcc, hpc, hgr⟩ := viralEntry_eq_some hpe
        rw [hkey] at hek
        have hc : countOf (dayKeywordCounter day) p.1 = p.2 := countOf_eq_of_mem hWF hp
        have hpz0 : ¬ countOf ((yData.map dayKeywordCounter).getD []) p.1 = 0 := by
          rw [hek]; exact hprev0
        simp only [viralEntry, hpz0, if_false] at hpe
        rw [← hek, hc]
        by_cases hgrow : threshold ≤ (p.2 : ℚ)
            / (countOf ((yData.map dayKeywordCounter).getD []) p.1 : ℚ)
        · exact hgrow
        · simp [hgrow] at hpe
      · intro hgrow
        have hcurpos : 0 < countOf (dayKeywordCounter day) k := by
          by_contra hc0
          have : countOf (dayKeywordCounter day) k = 0 := by omega
          rw [this] at hgrow
          have : threshold ≤ 0 := by
            simpa using hgrow
          linarith
        have hkmem : (k, countOf (dayKeywordCounter day) k) ∈ dayKeywordCounter day :=
          exists_mem_of_countOf_pos hcurpos
        refine ⟨⟨k, countOf (dayKeywordCounter day) k,
          countOf ((yData.map dayKeywordCounter).getD []) k,
          some (pyRound ((countOf (dayKeywordCounter day) k : ℚ)
            / (countOf ((yData.map dayKeywordCounter).getD []) k : ℚ)) 2),
          (dayKeywordTitles day k).take 3,
          decide (threshold * 2 < (countOf (dayKeywordCounter day) k : ℚ)
            / (countOf ((yData.map dayKeywordCounter).getD []) k : ℚ))⟩, ?_, rfl⟩
        apply (hmem _).mpr
        exact ⟨(k, countOf (dayKeywordCounter day) k), hkmem,
          by simp [viralEntry, hprev0, hgrow]⟩
    · intro e he hek
      obtain ⟨p, hp, hpe⟩ := (hmem e).mp he
      obtain ⟨hkey, hcc, hpc, hgr⟩ := viralEntry_eq_some hpe
      rw [hkey] at hek
      have hc : countOf (dayKeywordCounter day) p.1 = p.2 := countOf_eq_of_mem hWF hp
      rw [hgr, hek, if_neg hprev0, ← hek, hc]

/-- Witness for C7 at the concrete day `c7day` ("hot"×5, "warm"×4), missing
yesterday and threshold 3, for the keyword "warm". -/
theorem c7_viral_reporting_witness :
    (1 : ℚ) ≤ 3 ∧
    (∃ lst, detect_viral_topics (some c7day) none 3 = .ok lst ∧
      ((countOf (((none : Option DayData).map dayKeywordCounter).getD [])
          ['w','a','r','m'] = 0 →
        (((∃ e ∈ lst, e.keyword = ['w','a','r','m']) ↔
            5 ≤ countOf (dayKeywordCounter c7day) ['w','a','r','m']) ∧
         ∀ e ∈ lst, e.keyword = ['w','a','r','m'] → e.growth_rate = none)) ∧
       (0 < countOf (((none : Option DayData).map dayKeywordCounter).getD [])
          ['w','a','r','m'] →
        (((∃ e ∈ lst, e.keyword = ['w','a','r','m']) ↔
            3 ≤ (countOf (dayKeywordCounter c7day) ['w','a','r','m'] : ℚ)
              / (countOf (((none : Option DayData).map dayKeywordCounter).getD [])
                  ['w','a','r','m'] : ℚ)) ∧
         ∀ e ∈ lst, e.keyword = ['w','a','r','m'] →
           e.growth_rate = some (pyRound
             ((countOf (dayKeywordCounter c7day) ['w','a','r','m'] : ℚ)
              / (countOf (((none : Option DayData).map dayKeywordCounter).getD [])
                  ['w','a','r','m'] : ℚ)) 2))))) :=
  ⟨by norm_num, c7_viral_reporting c7day none 3 (by norm_num) ['w','a','r','m']⟩

set_option maxRecDepth 100000 in
/-- Counterexample to C9: on the one-day repository `c9repo` (titles `c9t1`
= "aa " ++ 201 x's and `c9t2` = "aa " ++ 200 x's, reference "aa bb cc"),
`search_related_news_history` returns the two hits in stored order t1, t2,
yet the exact combined score of the first is strictly smaller than that of
the second: the code sorts by the 4-decimal-rounded stored score (both round
to 0.1835), not by the exact combined score the claim describes. -/
theorem c9_related_sort_counterexample :
    search_related_news_history c9repo 51 c9ref .custom (some 50) (some 50) (1/10) 50
      = .ok 50 50 2
        [⟨c9t1, ['p'], ['p'], 50, 367/2000, 1/4, 283/10000, {(['a','a'] : Str)}, 1⟩,
         ⟨c9t2, ['p'], ['p'], 50, 367/2000, 1/4, 71/2500, {(['a','a'] : Str)}, 1⟩]
        (367/2000) [(['p'], 2)] [(50, 2)]
    ∧ combinedScore c9ref c9t1 < combinedScore c9ref c9t2 := by
  constructor
  · decide
  · decide

theorem pairwise_insertStable {α : Type} (le : α → α → Bool)
    (htot : ∀ a b, le a b = true ∨ le b a = true)
    (htrans : ∀ a b c, le a b = true → le b c = true → le a c = true)
    (x : α) (l : List α) (h : l.Pairwise (fun a b => le a b = true)) :
    (insertStable le x l).Pairwise (fun a b => le a b = true) := by
  induction l with
  | nil => simp [insertStable]
  | cons y t ih =>
    simp only [insertStable]
    by_cases hxy : le y x = true
    · rw [if_pos hxy]
      refine List.pairwise_cons.mpr ⟨?_, ih (List.pairwise_cons.mp h).2⟩
      intro z hz
      rcases (mem_insertStable le x z t).mp hz with rfl | hz2
      · exact hxy
      · exact (List.pairwise_cons.mp h).1 z hz2
    · rw [if_neg hxy]
      have hyx : le x y = true := (htot x y).resolve_right (fun hc => hxy hc)
      refine List.pairwise_cons.mpr ⟨?_, h⟩
      intro z hz
      rcases List.mem_cons.mp hz with rfl | hz2
      · exact hyx
      · exact htrans x y z hyx ((List.pairwise_cons.mp h).1 z hz2)

theorem pairwise_stableSort {α : Type} (le : α → α → Bool)
    (htot : ∀ a b, le a b = true ∨ le b a = true)
    (htrans : ∀ a b c, le a b = true → le b c = true → le a c = true)
    (l : List α) : (stableSort le l).Pairwise (fun a b => le a b = true) := by
  suffices h : ∀ acc, acc.Pairwise (fun a b => le a b = true) →
      (l.foldl (fun acc x => insertStable le x acc) acc).Pairwise
        (fun a b => le a b = true) by
    exact h [] List.Pairwise.nil
  induction l with
  | nil => intro acc hacc; exact hacc
  | cons x t ih =>
    intro acc hacc
    exact ih _ (pairwise_insertStable le htot htrans x acc hacc)

theorem relatedCollect_mem {repo : Repo} {ref : Str} {refKw : List Str} {th : ℚ}
    {s e : ℕ} {it : RelatedItem} (h : it ∈ relatedCollect repo ref refKw th s e) :
    th ≤ calculate_keyword_overlap refKw (searchTools_extract_keywords it.title) * (7/10)
        + search_calculate_similarity ref it.title * (3/10) ∧
    it.similarity_score = pyRound
      (calculate_keyword_overlap refKw (searchTools_extract_keywords it.title) * (7/10)
        + search_calculate_similarity ref it.title * (3/10)) 4 := by
  simp only [relatedCollect, List.mem_flatMap] at h
  obtain ⟨d, _, hmem⟩ := h
  rcases hld : lookupDay repo d with _ | day
  · rw [hld] at hmem
    simp at hmem
  · rw [hld] at hmem
    simp only [List.mem_flatMap] at hmem
    obtain ⟨pl, _, hmem2⟩ := hmem
    simp only [List.mem_filterMap] at hmem2
    obtain ⟨t, _, hsome⟩ := hmem2
    by_cases hth : th ≤ calculate_keyword_overlap refKw (searchTools_extract_keywords t.1)
        * (7/10) + search_calculate_similarity ref t.1 * (3/10)
    · rw [if_pos hth] at hsome
      obtain rfl := Option.some.inj hsome
      exact ⟨hth, rfl⟩
    · rw [if_neg hth] at hsome
      exact absurd hsome (by simp)

/-- C9 (amended): `search_related_news_history` fails InvalidParameter when
no keyword can be extracted from the stripped reference text; and every
success envelope returns exactly the kept items (each with exact combined
score `0.7 * keyword_overlap + 0.3 * text_similarity` at least the clamped
threshold, stored rounded to 4 places) sorted by the stored rounded
score descending — not the exact combined score — and truncated to the
validated limit. -/
theorem c9_related_history (repo : Repo) (today : ℕ) (ref : Str) (s e : ℕ)
    (th : ℚ) (lim : ℕ) :
    (pyStrip ref ≠ [] →
      searchTools_extract_keywords (pyStrip ref) = [] →
      search_related_news_history repo today ref .custom (some s) (some e) th lim
        = .failure .invalidParameter) ∧
    (∀ sd ed tf res avg pd dd,
      search_related_news_history repo today ref .custom (some s) (some e) th lim
        = .ok sd ed tf res avg pd dd →
      res = (stableSort (fun x y => decide (y.similarity_score ≤ x.similarity_score))
          (relatedCollect repo (pyStrip ref)
            (searchTools_extract_keywords (pyStrip ref)) (max 0 (min 1 th)) s e)).take
          (validate_limit lim 50) ∧
      (∀ it ∈ res,
        max 0 (min 1 th) ≤ combinedScore (pyStrip ref) it.title ∧
        it.similarity_score = pyRound (combinedScore (pyStrip ref) it.title) 4) ∧
      res.Pairwise (fun x y => y.similarity_score ≤ x.similarity_score)) := by
  constructor
  · intro h1 h2
    simp [search_related_news_history, h1, h2, resolvePreset]
  · intro sd ed tf res avg pd dd hok
    by_cases hs : pyStrip ref = []
    · simp [search_related_news_history, hs] at hok
    by_cases hk : searchTools_extract_keywords (pyStrip ref) = []
    · simp [search_related_news_history, hs, hk, resolvePreset] at hok
    by_cases hall : relatedCollect repo (pyStrip ref)
        (searchTools_extract_keywords (pyStrip ref)) (max 0 (min 1 th)) s e = []
    · simp [search_related_news_history, hs, hk, hall, resolvePreset] at hok
    simp only [search_related_news_history, if_neg hs, resolvePreset, if_neg hk,
      if_neg hall, RelatedResult.ok.injEq] at hok
    obtain ⟨h1, h2, h3, hres, h5, h6, h7⟩ := hok
    refine ⟨hres.symm, ?_, ?_⟩
    · intro it hit
      rw [← hres] at hit
      have hit2 : it ∈ stableSort
          (fun x y => decide (y.similarity_score ≤ x.similarity_score))
          (relatedCollect repo (pyStrip ref)
            (searchTools_extract_keywords (pyStrip ref)) (max 0 (min 1 th)) s e) :=
        (List.take_sublist _ _).subset hit
      have hit3 := (mem_stableSort _ _ _).mp hit2
      exact relatedCollect_mem hit3
    · rw [← hres]
      have hp := pairwise_stableSort
        (fun x y => decide (y.similarity_score ≤ x.similarity_score))
        (fun a b => by
          rcases le_total b.similarity_score a.similarity_score with h | h
          · exact Or.inl (decide_eq_true h)
          · exact Or.inr (decide_eq_true h))
        (fun a b c hab hbc =>
          decide_eq_true (le_trans (of_decide_eq_true hbc) (of_decide_eq_true hab)))
        (relatedCollect repo (pyStrip ref)
          (searchTools_extract_keywords (pyStrip ref)) (max 0 (min 1 th)) s e)
      exact List.Pairwise.sublist (List.take_sublist _ _)
        (hp.imp (fun h => of_decide_eq_true h))

/-- Witness for C9 (amended): a reference text "#" strips to itself but
yields no extractable keyword, so the call fails InvalidParameter. -/
theorem c9_related_history_witness :
    pyStrip ['#'] ≠ [] ∧ searchTools_extract_keywords (pyStrip ['#']) = [] ∧
    search_related_news_history c9repo 51 ['#'] .custom (some 50) (some 50) (1/10) 50
      = .failure .invalidParameter :=
  ⟨by decide, by decide,
    (c9_related_history c9repo 51 ['#'] 50 50 (1/10) 50).1 (by decide) (by decide)⟩

theorem lookupDay_cons_empty {repo : Repo} {d : ℕ} (d' : ℕ) :
    lookupDay ((d, emptyDay) :: repo) d'
      = if d' = d then some emptyDay else lookupDay repo d' := by
  by_cases hd : d' = d
  · subst hd
    simp [lookupDay, List.find?]
  · have hd' : ¬ (d = d') := fun e => hd e.symm
    simp [lookupDay, List.find?, hd, hd']

theorem topicDayMatches_cons_empty {repo : Repo} {d : ℕ}
    (h : lookupDay repo d = none) :
    ∀ (tp : Str) (d' : ℕ),
      topicDayMatches ((d, emptyDay) :: repo) tp d' = topicDayMatches repo tp d' := by
  intro tp d'
  unfold topicDayMatches
  rw [lookupDay_cons_empty]
  by_cases hd : d' = d
  · rw [if_pos hd, hd, h]
    rfl
  · rw [if_neg hd]

theorem compareCollect_cons_empty {repo : Repo} {d : ℕ}
    (h : lookupDay repo d = none) :
    ∀ (topic : Option Str) (s e : ℕ),
      compareCollect ((d, emptyDay) :: repo) topic s e = compareCollect repo topic s e := by
  intro topic s e
  unfold compareCollect
  congr 1
  funext acc dd
  rw [lookupDay_cons_empty]
  by_cases hd : dd = d
  · rw [if_pos hd, hd, h]
    rfl
  · rw [if_neg hd]

theorem sentimentCollect_cons_empty {repo : Repo} {d : ℕ}
    (h : lookupDay repo d = none) :
    ∀ (topic : Option Str) (platforms : Option (List Str)) (s e : ℕ),
      sentimentCollect ((d, emptyDay) :: repo) topic platforms s e
        = sentimentCollect repo topic platforms s e := by
  intro topic platforms s e
  unfold sentimentCollect
  congr 1
  funext dd
  rw [lookupDay_cons_empty]
  by_cases hd : dd = d
  · rw [if_pos hd, hd, h]
    cases platforms with
    | none => rfl
    | some ps => rfl
  · rw [if_neg hd]

theorem summaryCollect_cons_empty {repo : Repo} {d : ℕ}
    (h : lookupDay repo d = none) :
    ∀ (s e : ℕ),
      summaryCollect ((d, emptyDay) :: repo) s e = summaryCollect repo s e := by
  intro s e
  unfold summaryCollect
  congr 1
  funext acc dd
  rw [lookupDay_cons_empty]
  by_cases hd : dd = d
  · rw [if_pos hd, hd, h]
    rfl
  · rw [if_neg hd]

/-- C5 (amended): for every missing date `d` (the repository's
DataNotFound condition, `lookupDay repo d = none`), storing an explicitly
empty snapshot on `d` changes nothing: the day-by-day loops of trend,
lifecycle, platform comparison, sentiment collection and summary reports
treat the missing day exactly as an empty day (zero counts, no failure);
the 3-prior-days history of `predict_trending_topics` does too, but only
for dates other than `today` — a missing `today` makes predict fail
(see the counterexample). -/
theorem c5_missing_day_contributes_empty (repo : Repo) (d : ℕ)
    (hmiss : lookupDay repo d = none) (topic : Str) (topt : Option Str)
    (platforms : Option (List Str)) (startD endD today : ℕ) (lim : ℕ)
    (sw : Bool) (conf : ℚ) :
    get_topic_trend_analysis ((d, emptyDay) :: repo) topic startD endD
      = get_topic_trend_analysis repo topic startD endD ∧
    analyze_topic_lifecycle ((d, emptyDay) :: repo) topic startD endD
      = analyze_topic_lifecycle repo topic startD endD ∧
    compare_platforms ((d, emptyDay) :: repo) topt startD endD
      = compare_platforms repo topt startD endD ∧
    analyze_sentiment ((d, emptyDay) :: repo) topt platforms startD endD lim sw
      = analyze_sentiment repo topt platforms startD endD lim sw ∧
    generate_summary_report ((d, emptyDay) :: repo) startD endD
      = generate_summary_report repo startD endD ∧
    (d ≠ today →
      predict_trending_topics ((d, emptyDay) :: repo) today conf
        = predict_trending_topics repo today conf) := by
  refine ⟨?_, ?_, ?_, ?_, ?_, ?_⟩
  · unfold get_topic_trend_analysis topicDayCount
    simp only [topicDayMatches_cons_empty hmiss]
  · unfold analyze_topic_lifecycle topicDayCount
    simp only [topicDayMatches_cons_empty hmiss]
  · unfold compare_platforms compare_platforms_run
    simp only [compareCollect_cons_empty hmiss]
  · unfold analyze_sentiment analyze_sentiment_run
    simp only [sentimentCollect_cons_empty hmiss]
  · unfold generate_summary_report
    simp only [summaryCollect_cons_empty hmiss]
  · intro hne
    unfold predict_trending_topics
    have htoday : lookupDay ((d, emptyDay) :: repo) today = lookupDay repo today := by
      rw [lookupDay_cons_empty, if_neg (fun e => hne e.symm)]
    have htrends : (fun (acc : List (Str × List ℕ)) (daysAgo : ℕ) =>
        match lookupDay ((d, emptyDay) :: repo) (today - daysAgo) with
        | none => acc
        | some day => trendsUpdate acc (dayKeywordCounter day))
        = (fun (acc : List (Str × List ℕ)) (daysAgo : ℕ) =>
        match lookupDay repo (today - daysAgo) with
        | none => acc
        | some day => trendsUpdate acc (dayKeywordCounter day)) := by
      funext acc daysAgo
      rw [lookupDay_cons_empty]
      by_cases hd : today - daysAgo = d
      · rw [if_pos hd, hd, hmiss]
        simp [dayKeywordCounter, dayTitles, emptyDay, trendsUpdate]
      · rw [if_neg hd]
    rw [htoday, htrends]

/-- Counterexample to C5: `predict_trending_topics` hard-fails with
DataNotFound when `today` itself is missing — the `read_all_titles(today)`
call is outside the per-day try/except — although the same repository with
an explicitly empty `today` succeeds (with no predictions). -/
theorem c5_predict_missing_today_counterexample :
    lookupDay c5repo 10 = none ∧
    predict_trending_topics c5repo 10 (7/10) = .failure .dataNotFound ∧
    predict_trending_topics ((10, emptyDay) :: c5repo) 10 (7/10) = .ok [] 0 :=
  ⟨by decide, by decide, by decide⟩

/-- Witness for C5 (amended) on the one-day repository `c5repo`
(missing day 10, today 11). -/
theorem c5_missing_day_contributes_empty_witness :
    lookupDay c5repo 10 = none ∧
    (get_topic_trend_analysis ((10, emptyDay) :: c5repo) ['x'] 9 10
      = get_topic_trend_analysis c5repo ['x'] 9 10 ∧
    analyze_topic_lifecycle ((10, emptyDay) :: c5repo) ['x'] 9 10
      = analyze_topic_lifecycle c5repo ['x'] 9 10 ∧
    compare_platforms ((10, emptyDay) :: c5repo) none 9 10
      = compare_platforms c5repo none 9 10 ∧
    analyze_sentiment ((10, emptyDay) :: c5repo) none none 9 10 10 true
      = analyze_sentiment c5repo none none 9 10 10 true ∧
    generate_summary_report ((10, emptyDay) :: c5repo) 9 10
      = generate_summary_report c5repo 9 10 ∧
    (10 ≠ 11 →
      predict_trending_topics ((10, emptyDay) :: c5repo) 11 (7/10)
        = predict_trending_topics c5repo 11 (7/10))) :=
  ⟨by decide,
    c5_missing_day_contributes_empty c5repo 10 (by decide) ['x'] none none 9 10 11 10 true (7/10)⟩

theorem extLeft_bounds (a b : Str) (alo blo : ℕ) (cond : Char → Bool)
    (fuel : ℕ) : ∀ besti bestj bestsize ahi bhi,
    alo ≤ besti → blo ≤ bestj → besti + bestsize ≤ ahi → bestj + bestsize ≤ bhi →
    alo ≤ (extLeft a b alo blo cond fuel besti bestj bestsize).1 ∧
    blo ≤ (extLeft a b alo blo cond fuel besti bestj bestsize).2.1 ∧
    (extLeft a b alo blo cond fuel besti bestj bestsize).1
      + (extLeft a b alo blo cond fuel besti bestj bestsize).2.2 ≤ ahi ∧
    (extLeft a b alo blo cond fuel besti bestj bestsize).2.1
      + (extLeft a b alo blo cond fuel besti bestj bestsize).2.2 ≤ bhi := by
  induction fuel with
  | zero => intro besti bestj bestsize ahi bhi h1 h2 h3 h4; exact ⟨h1, h2, h3, h4⟩
  | succ n ih =>
    intro besti bestj bestsize ahi bhi h1 h2 h3 h4
    rw [extLeft]
    by_cases hc : alo < besti ∧ blo < bestj ∧ cond (b.getD (bestj - 1) ' ') = true
        ∧ a.getD (besti - 1) ' ' = b.getD (bestj - 1) ' '
    · rw [if_pos hc]
      exact ih _ _ _ _ _ (by omega) (by omega) (by omega) (by omega)
    · rw [if_neg hc]
      exact ⟨h1, h2, h3, h4⟩

theorem extRight_bounds (a b : Str) (ahi bhi : ℕ) (cond : Char → Bool)
    (besti bestj : ℕ) (fuel : ℕ) : ∀ bestsize,
    besti + bestsize ≤ ahi → bestj + bestsize ≤ bhi →
    besti + extRight a b ahi bhi cond besti bestj fuel bestsize ≤ ahi ∧
    bestj + extRight a b ahi bhi cond besti bestj fuel bestsize ≤ bhi := by
  induction fuel with
  | zero => intro bestsize h1 h2; exact ⟨h1, h2⟩
  | succ n ih =>
    intro bestsize h1 h2
    rw [extRight]
    by_cases hc : besti + bestsize < ahi ∧ bestj + bestsize < bhi
        ∧ cond (b.getD (bestj + bestsize) ' ') = true
        ∧ a.getD (besti + bestsize) ' ' = b.getD (bestj + bestsize) ' '
    · rw [if_pos hc]
      exact ih _ (by omega) (by omega)
    · rw [if_neg hc]
      exact ⟨h1, h2⟩

theorem flmInner_pres (j2old : ℕ → ℕ) (alo blo bhi i j : ℕ)
    (hold : ∀ x, j2old x ≠ 0 → j2old x + blo ≤ x + 1 ∧ j2old x + alo ≤ i)
    (hi : alo ≤ i) (hj1 : blo ≤ j) (hj2 : j < bhi) (st : FlmState)
    (hst : (∀ x, st.j2len x ≠ 0 → st.j2len x + blo ≤ x + 1 ∧ st.j2len x + alo ≤ i + 1) ∧
      alo ≤ st.besti ∧ blo ≤ st.bestj ∧
      st.besti + st.bestsize ≤ i + 1 ∧ st.bestj + st.bestsize ≤ bhi) :
    (∀ x, (flmInner j2old i st j).j2len x ≠ 0 →
        (flmInner j2old i st j).j2len x + blo ≤ x + 1 ∧
        (flmInner j2old i st j).j2len x + alo ≤ i + 1) ∧
    alo ≤ (flmInner j2old i st j).besti ∧ blo ≤ (flmInner j2old i st j).bestj ∧
    (flmInner j2old i st j).besti + (flmInner j2old i st j).bestsize ≤ i + 1 ∧
    (flmInner j2old i st j).bestj + (flmInner j2old i st j).bestsize ≤ bhi := by
  obtain ⟨hrow, hb1, hb2, hb3, hb4⟩ := hst
  have hk1 : ((if j = 0 then 0 else j2old (j - 1)) + 1) + blo ≤ j + 1 := by
    by_cases h0 : j = 0
    · rw [if_pos h0]
      omega
    · rw [if_neg h0]
      by_cases hz : j2old (j - 1) = 0
      · rw [hz]; omega
      · have := (hold _ hz).1
        omega
  have hk2 : ((if j = 0 then 0 else j2old (j - 1)) + 1) + alo ≤ i + 1 := by
    by_cases h0 : j = 0
    · rw [if_pos h0]; omega
    · rw [if_neg h0]
      by_cases hz : j2old (j - 1) = 0
      · rw [hz]; omega
      · have := (hold _ hz).2
        omega
  unfold flmInner
  by_cases hup : st.bestsize < (if j = 0 then 0 else j2old (j - 1)) + 1
  · rw [if_pos hup]
    refine ⟨?_, by dsimp only; omega, by dsimp only; omega,
      by dsimp only; omega, by dsimp only; omega⟩
    intro x hx
    dsimp only at hx ⊢
    by_cases hxj : x = j
    · rw [if_pos hxj] at hx ⊢
      omega
    · rw [if_neg hxj] at hx ⊢
      exact hrow x hx
  · rw [if_neg hup]
    refine ⟨?_, by dsimp only; exact hb1, by dsimp only; exact hb2,
      by dsimp only; exact hb3, by dsimp only; exact hb4⟩
    intro x hx
    dsimp only at hx ⊢
    by_cases hxj : x = j
    · rw [if_pos hxj] at hx ⊢
      omega
    · rw [if_neg hxj] at hx ⊢
      exact hrow x hx

theorem flmRow_pres (a : Str) (bj : Char → List ℕ) (alo blo bhi i : ℕ)
    (st : FlmState) (hi : alo ≤ i) (hst : FlmOK alo blo bhi i st) :
    FlmOK alo blo bhi (i + 1) (flmRow a bj blo bhi st i) := by
  obtain ⟨hrow, hb1, hb2, hb3, hb4⟩ := hst
  unfold flmRow
  have hjs : ∀ j ∈ ((bj (a.getD i ' ')).takeWhile (fun j => j < bhi)).filter
      (fun j => blo ≤ j), blo ≤ j ∧ j < bhi := by
    intro j hj
    have h1 := List.of_mem_filter hj
    have h2 := List.mem_takeWhile_imp (List.mem_of_mem_filter hj)
    constructor
    · exact of_decide_eq_true h1
    · exact of_decide_eq_true h2
  suffices h : ∀ (js : List ℕ), (∀ j ∈ js, blo ≤ j ∧ j < bhi) →
      ∀ (st0 : FlmState),
      ((∀ x, st0.j2len x ≠ 0 → st0.j2len x + blo ≤ x + 1 ∧ st0.j2len x + alo ≤ i + 1) ∧
        alo ≤ st0.besti ∧ blo ≤ st0.bestj ∧
        st0.besti + st0.bestsize ≤ i + 1 ∧ st0.bestj + st0.bestsize ≤ bhi) →
      FlmOK alo blo bhi (i + 1) (js.foldl (flmInner st.j2len i) st0) by
    refine h _ hjs ⟨fun _ => 0, st.besti, st.bestj, st.bestsize⟩ ?_
    exact ⟨fun x hx => absurd rfl hx, hb1, hb2, by dsimp only; omega, hb4⟩
  intro js
  induction js with
  | nil =>
    intro _ st0 h0
    exact ⟨h0.1, h0.2.1, h0.2.2.1, h0.2.2.2.1, h0.2.2.2.2⟩
  | cons j t ih =>
    intro hmem st0 h0
    have hj := hmem j (List.mem_cons_self _ _)
    refine ih (fun x hx => hmem x (List.mem_cons_of_mem _ hx)) _ ?_
    exact flmInner_pres st.j2len alo blo bhi i j
      (fun x hx => (hrow x hx).imp id (fun h => by omega)) hi hj.1 hj.2 st0 h0

theorem flm_dp_ok (a : Str) (bj : Char → List ℕ) (alo blo bhi : ℕ) :
    ∀ (n i : ℕ) (st : FlmState), alo ≤ i → FlmOK alo blo bhi i st →
      FlmOK alo blo bhi (i + n) ((List.range' i n).foldl (flmRow a bj blo bhi) st) := by
  intro n
  induction n with
  | zero => intro i st _ h; exact h
  | succ m ih =>
    intro i st hi h
    have : List.range' i (m + 1) = i :: List.range' (i + 1) m := by
      rw [List.range'_succ]
    rw [this, List.foldl_cons]
    have h2 := ih (i + 1) (flmRow a bj blo bhi st i) (by omega)
      (flmRow_pres a bj alo blo bhi i st hi h)
    have he : i + 1 + m = i + (m + 1) := by omega
    rw [he] at h2
    exact h2

theorem flm_bounds (a b : Str) (bj : Char → List ℕ) (bjunk : Char → Bool)
    (alo ahi blo bhi : ℕ) (h1 : alo ≤ ahi) (h2 : blo ≤ bhi) :
    alo ≤ (find_longest_match a b bj bjunk alo ahi blo bhi).1 ∧
    blo ≤ (find_longest_match a b bj bjunk alo ahi blo bhi).2.1 ∧
    (find_longest_match a b bj bjunk alo ahi blo bhi).1
      + (find_longest_match a b bj bjunk alo ahi blo bhi).2.2 ≤ ahi ∧
    (find_longest_match a b bj bjunk alo ahi blo bhi).2.1
      + (find_longest_match a b bj bjunk alo ahi blo bhi).2.2 ≤ bhi := by
  have hdp := flm_dp_ok a bj alo blo bhi (ahi - alo) alo
    ⟨fun _ => 0, alo, blo, 0⟩ (le_refl alo)
    ⟨fun x hx => absurd rfl hx, le_refl alo, le_refl blo,
      by dsimp only; omega, by dsimp only; omega⟩
  have hsum : alo + (ahi - alo) = ahi := by omega
  rw [hsum] at hdp
  unfold find_longest_match
  dsimp only
  set st := List.foldl (flmRow a bj blo bhi)
    ⟨fun _ => 0, alo, blo, 0⟩ (List.range' alo (ahi - alo)) with hstdef
  obtain ⟨_, hb1, hb2, hb3, hb4⟩ := hdp
  set e1 := extLeft a b alo blo (fun c => !bjunk c)
    st.besti st.besti st.bestj st.bestsize with he1def
  have he1 := extLeft_bounds a b alo blo (fun c => !bjunk c)
    st.besti st.besti st.bestj st.bestsize ahi bhi hb1 hb2 hb3 hb4
  rw [← he1def] at he1
  obtain ⟨g1, g2, g3, g4⟩ := he1
  set k2 := extRight a b ahi bhi (fun c => !bjunk c) e1.1 e1.2.1 ahi e1.2.2 with hk2def
  have hk2 := extRight_bounds a b ahi bhi (fun c => !bjunk c)
    e1.1 e1.2.1 ahi e1.2.2 g3 g4
  rw [← hk2def] at hk2
  obtain ⟨k1, k2b⟩ := hk2
  set e3 := extLeft a b alo blo bjunk e1.1 e1.1 e1.2.1 k2 with he3def
  have he3 := extLeft_bounds a b alo blo bjunk e1.1 e1.1 e1.2.1 k2 ahi bhi g1 g2 k1 k2b
  rw [← he3def] at he3
  obtain ⟨m1, m2, m3, m4⟩ := he3
  have hk4 := extRight_bounds a b ahi bhi bjunk e3.1 e3.2.1 ahi e3.2.2 m3 m4
  exact ⟨m1, m2, hk4.1, hk4.2⟩

theorem matchedAux_le (a b : Str) (bj : Char → List ℕ) (bjunk : Char → Bool) :
    ∀ (fuel alo ahi blo bhi : ℕ), alo ≤ ahi → blo ≤ bhi →
      matchedAux a b bj bjunk fuel alo ahi blo bhi + alo ≤ ahi ∧
      matchedAux a b bj bjunk fuel alo ahi blo bhi + blo ≤ bhi := by
  intro fuel
  induction fuel with
  | zero =>
    intro alo ahi blo bhi h1 h2
    rw [matchedAux]
    omega
  | succ n ih =>
    intro alo ahi blo bhi h1 h2
    rw [matchedAux]
    by_cases hz : (find_longest_match a b bj bjunk alo ahi blo bhi).2.2 = 0
    · rw [if_pos hz]
      omega
    · rw [if_neg hz]
      obtain ⟨q1, q2, q3, q4⟩ := flm_bounds a b bj bjunk alo ahi blo bhi h1 h2
      have i1 := ih alo (find_longest_match a b bj bjunk alo ahi blo bhi).1
        blo (find_longest_match a b bj bjunk alo ahi blo bhi).2.1 q1 q2
      have i2 := ih
        ((find_longest_match a b bj bjunk alo ahi blo bhi).1
          + (find_longest_match a b bj bjunk alo ahi blo bhi).2.2) ahi
        ((find_longest_match a b bj bjunk alo ahi blo bhi).2.1
          + (find_longest_match a b bj bjunk alo ahi blo bhi).2.2) bhi q3 q4
      omega

theorem matchedTotal_le (a b : Str) :
    matchedTotal a b ≤ a.length ∧ matchedTotal a b ≤ b.length := by
  have h := matchedAux_le a b (b2jMap b) (fun _ => false)
    (a.length + b.length + 1) 0 a.length 0 b.length (by omega) (by omega)
  unfold matchedTotal
  omega

theorem seqMatcherScore_bounds (a b : Str) :
    0 ≤ seqMatcherScore a b ∧ seqMatcherScore a b ≤ 1 := by
  unfold seqMatcherScore
  by_cases h : a.length + b.length = 0
  · rw [if_pos h]
    norm_num
  · rw [if_neg h]
    have hM := matchedTotal_le a b
    have hpos : (0 : ℚ) < (a.length : ℚ) + (b.length : ℚ) := by
      have h0 : 0 < a.length + b.length := Nat.pos_of_ne_zero h
      exact_mod_cast h0
    constructor
    · apply div_nonneg _ (le_of_lt hpos)
      positivity
    · rw [div_le_one hpos]
      have h1 : 2 * matchedTotal a b ≤ a.length + b.length := by omega
      exact_mod_cast h1

theorem extLeft_stuck (a b : Str) (alo blo : ℕ) (cond : Char → Bool)
    (besti bestj bestsize : ℕ) (h : besti ≤ alo) :
    ∀ fuel, extLeft a b alo blo cond fuel besti bestj bestsize
      = (besti, bestj, bestsize) := by
  intro fuel
  cases fuel with
  | zero => rfl
  | succ n =>
    rw [extLeft, if_neg]
    intro hc
    omega

theorem extRight_stuck (a b : Str) (ahi bhi : ℕ) (cond : Char → Bool)
    (besti bestj : ℕ) (bestsize : ℕ) (h : ahi ≤ besti + bestsize) :
    ∀ fuel, extRight a b ahi bhi cond besti bestj fuel bestsize = bestsize := by
  intro fuel
  cases fuel with
  | zero => rfl
  | succ n =>
    rw [extRight, if_neg]
    intro hc
    omega

theorem flm_degenerate (a b : Str) (bj : Char → List ℕ) (bjunk : Char → Bool)
    (alo ahi blo bhi : ℕ) (h : ahi ≤ alo) :
    find_longest_match a b bj bjunk alo ahi blo bhi = (alo, blo, 0) := by
  unfold find_longest_match
  have hr : ahi - alo = 0 := by omega
  rw [hr]
  dsimp only [List.range']
  rw [List.foldl_nil]
  dsimp only
  rw [extLeft_stuck a b alo blo _ alo blo 0 (le_refl alo)]
  dsimp only
  rw [extRight_stuck a b ahi bhi _ alo blo 0 (by omega)]
  rw [extLeft_stuck a b alo blo _ alo blo 0 (le_refl alo)]
  dsimp only
  rw [extRight_stuck a b ahi bhi _ alo blo 0 (by omega)]

theorem matchedAux_degenerate (a b : Str) (bj : Char → List ℕ) (bjunk : Char → Bool)
    (alo ahi blo bhi : ℕ) (h : ahi ≤ alo) :
    ∀ fuel, matchedAux a b bj bjunk fuel alo ahi blo bhi = 0 := by
  intro fuel
  cases fuel with
  | zero => rw [matchedAux]
  | succ n =>
    rw [matchedAux]
    rw [flm_degenerate a b bj bjunk alo ahi blo bhi h]
    norm_num

theorem takeWhile_all {p : ℕ → Bool} :
    ∀ (l : List ℕ), (∀ x ∈ l, p x = true) → l.takeWhile p = l := by
  intro l
  induction l with
  | nil => intro _; rfl
  | cons x t ih =>
    intro h
    rw [List.takeWhile_cons, if_pos (h x (List.mem_cons_self _ _))]
    rw [ih (fun y hy => h y (List.mem_cons_of_mem _ hy))]

theorem range_split (i L : ℕ) (h : i < L) :
    List.range L = List.range i ++ i :: List.range' (i + 1) (L - (i + 1)) := by
  rw [List.range_eq_range', List.range_eq_range']
  have h1 : List.range' 0 i ++ List.range' i (L - i) = List.range' 0 L := by
    have h0 := List.range'_append 0 i (L - i) 1
    simp only [Nat.zero_add, Nat.one_mul] at h0
    rw [h0]
    congr 1
    omega
  have h2 : L - i = (L - (i + 1)) + 1 := by omega
  rw [← h1, h2, List.range'_succ]

theorem fold_noupdate (j2old : ℕ → ℕ) (i B R : ℕ) (g : ℕ → ℕ) :
    ∀ (js : List ℕ) (st0 : FlmState),
      (∀ j ∈ js, (if j = 0 then 0 else j2old (j - 1)) + 1 ≤ B ∧
                 (if j = 0 then 0 else j2old (j - 1)) + 1 ≤ g j ∧
                 (if j = 0 then 0 else j2old (j - 1)) + 1 ≤ R) →
      st0.bestsize = B →
      (js.foldl (flmInner j2old i) st0).besti = st0.besti ∧
      (js.foldl (flmInner j2old i) st0).bestj = st0.bestj ∧
      (js.foldl (flmInner j2old i) st0).bestsize = B ∧
      ∀ x, ((js.foldl (flmInner j2old i) st0).j2len x = st0.j2len x ∨
            ((js.foldl (flmInner j2old i) st0).j2len x ≤ g x ∧
             (js.foldl (flmInner j2old i) st0).j2len x ≤ R)) ∧
           (x ∉ js → (js.foldl (flmInner j2old i) st0).j2len x = st0.j2len x) := by
  intro js
  induction js with
  | nil =>
    intro st0 _ hb
    exact ⟨rfl, rfl, hb, fun x => ⟨Or.inl rfl, fun _ => rfl⟩⟩
  | cons j t ih =>
    intro st0 hjs hb
    rw [List.foldl_cons]
    have hj := hjs j (List.mem_cons_self _ _)
    have hnup : ¬ (st0.bestsize < (if j = 0 then 0 else j2old (j - 1)) + 1) := by
      rw [hb]
      omega
    have h1 : flmInner j2old i st0 j
        = ⟨fun x => if x = j then (if j = 0 then 0 else j2old (j - 1)) + 1
             else st0.j2len x, st0.besti, st0.bestj, st0.bestsize⟩ := by
      unfold flmInner
      rw [if_neg hnup]
    have hres := ih (flmInner j2old i st0 j)
      (fun y hy => hjs y (List.mem_cons_of_mem _ hy))
      (by rw [h1]; exact hb)
    obtain ⟨r1, r2, r3, r4⟩ := hres
    have e1 : (flmInner j2old i st0 j).besti = st0.besti := by rw [h1]
    have e2 : (flmInner j2old i st0 j).bestj = st0.bestj := by rw [h1]
    refine ⟨r1.trans e1, r2.trans e2, r3, ?_⟩
    intro x
    obtain ⟨c1, c2⟩ := r4 x
    have ej : (flmInner j2old i st0 j).j2len x
        = if x = j then (if j = 0 then 0 else j2old (j - 1)) + 1
          else st0.j2len x := by rw [h1]
    constructor
    · rcases c1 with hc | hc
      · rw [ej] at hc
        by_cases hxj : x = j
        · rw [if_pos hxj] at hc
          rw [hc]
          subst hxj
          exact Or.inr ⟨hj.2.1, hj.2.2⟩
        · rw [if_neg hxj] at hc
          exact Or.inl hc
      · exact Or.inr hc
    · intro hx
      have hxj : x ≠ j := fun e => hx (e ▸ List.mem_cons_self _ _)
      have hxt : x ∉ t := fun e => hx (List.mem_cons_of_mem _ e)
      rw [c2 hxt, ej, if_neg hxj]

theorem visRun_le (s : Str) : ∀ x, visRun s x ≤ x + 1 := by
  intro x
  induction x with
  | zero =>
    rw [visRun]
    split <;> omega
  | succ n ih =>
    rw [visRun]
    split <;> omega

theorem visRun_eq (s : Str) (x : ℕ) (h : visChar s x = true) :
    visRun s x = (if x = 0 then 0 else visRun s (x - 1)) + 1 := by
  cases x with
  | zero => rw [visRun, if_pos h, if_pos rfl]
  | succ n =>
    rw [visRun, if_pos h, if_neg (Nat.succ_ne_zero n), Nat.add_sub_cancel]

theorem visRun_zero_of (s : Str) (x : ℕ) (h : visChar s x = false) :
    visRun s x = 0 := by
  cases x with
  | zero => rw [visRun, if_neg (by simp [h])]
  | succ n => rw [visRun, if_neg (by simp [h])]

theorem extLeft_diag (s : Str) (cond : Char → Bool) (hcond : ∀ c, cond c = true) :
    ∀ (c sz : ℕ), extLeft s s 0 0 cond c c c sz = (0, 0, sz + c) := by
  intro c
  induction c with
  | zero => intro sz; rfl
  | succ n ih =>
    intro sz
    rw [extLeft, if_pos]
    · show extLeft s s 0 0 cond n n n (sz + 1) = (0, 0, sz + (n + 1))
      rw [ih (sz + 1)]
      have he : sz + 1 + n = sz + (n + 1) := by omega
      rw [he]
    · exact ⟨by omega, by omega, hcond _, rfl⟩

theorem extRight_full (s : Str) (cond : Char → Bool) (hcond : ∀ c, cond c = true) :
    ∀ (fuel sz : ℕ), sz ≤ s.length → s.length - sz ≤ fuel →
      extRight s s s.length s.length cond 0 0 fuel sz = s.length := by
  intro fuel
  induction fuel with
  | zero =>
    intro sz h1 h2
    rw [extRight]
    omega
  | succ n ih =>
    intro sz h1 h2
    by_cases hlt : sz < s.length
    · rw [extRight, if_pos]
      · exact ih (sz + 1) (by omega) (by omega)
      · exact ⟨by omega, by omega, hcond _, rfl⟩
    · rw [extRight, if_neg]
      · omega
      · intro hc
        omega

theorem flmRow_selfInv (s : Str) (i : ℕ) (hi : i < s.length) (st : FlmState)
    (h : SelfInv s i st) :
    SelfInv s (i + 1) (flmRow s (b2jMap s) 0 s.length st i) := by
  obtain ⟨hd1, hd2, hd4, hd5, hd6, hd7⟩ := h
  unfold flmRow
  by_cases hp : isPopular s (s.getD i ' ') = true
  · -- the character of row i is autojunk-popular: empty position list,
    -- the row resets and the best is unchanged
    have hbj : b2jMap s (s.getD i ' ') = [] := by
      unfold b2jMap
      rw [if_pos hp]
    rw [hbj]
    simp only [List.takeWhile_nil, List.filter_nil, List.foldl_nil]
    have hvz : visRun s i = 0 := by
      apply visRun_zero_of
      unfold visChar
      rw [hp]
      simp
    refine ⟨hd1, ?_, ?_, ?_, ?_, ?_⟩
    · dsimp only
      omega
    · intro x hx
      dsimp only
      by_cases hxi : x < i
      · exact hd4 x hxi
      · have hxe : x = i := by omega
        rw [hxe, hvz]
        omega
    · intro x hx
      exact absurd rfl hx
    · intro x hx
      exact absurd rfl hx
    · intro _
      rw [Nat.add_sub_cancel, hvz]
  · -- visible row
    rw [Bool.not_eq_true] at hp
    have hbj : b2jMap s (s.getD i ' ') = charPositions s (s.getD i ' ') := by
      unfold b2jMap
      rw [hp]
      simp
    rw [hbj]
    have hall : (charPositions s (s.getD i ' ')).takeWhile
        (fun j => decide (j < s.length)) = charPositions s (s.getD i ' ') := by
      apply takeWhile_all
      intro x hx
      have hxr : x ∈ List.range s.length := List.mem_of_mem_filter hx
      exact decide_eq_true (List.mem_range.mp hxr)
    rw [hall]
    have hfilt : (charPositions s (s.getD i ' ')).filter (fun j => decide (0 ≤ j))
        = charPositions s (s.getD i ' ') := by
      apply List.filter_eq_self.mpr
      intro x _
      exact decide_eq_true (Nat.zero_le x)
    rw [hfilt]
    have hsplit : charPositions s (s.getD i ' ')
        = (List.range i).filter (fun j => decide (s.getD j ' ' = s.getD i ' '))
          ++ i :: (List.range' (i + 1) (s.length - (i + 1))).filter
              (fun j => decide (s.getD j ' ' = s.getD i ' ')) := by
      unfold charPositions
      rw [range_split i s.length hi, List.filter_append, List.filter_cons]
      rw [if_pos (decide_eq_true rfl)]
    rw [hsplit, List.foldl_append, List.foldl_cons]
    have hvis : ∀ j, s.getD j ' ' = s.getD i ' ' → j < s.length →
        visChar s j = true := by
      intro j hc hj
      unfold visChar
      rw [hc, hp]
      simp [hj]
    have hvisi : visChar s i = true := hvis i rfl hi
    have hrvi : visRun s i = (if i = 0 then 0 else visRun s (i - 1)) + 1 :=
      visRun_eq s i hvisi
    have hkvj : ∀ j, s.getD j ' ' = s.getD i ' ' → j < s.length →
        (if j = 0 then 0 else st.j2len (j - 1)) + 1 ≤ visRun s j := by
      intro j hc hj
      have hrvj := visRun_eq s j (hvis j hc hj)
      by_cases h0 : j = 0
      · rw [if_pos h0, hrvj, if_pos h0]
      · rw [if_neg h0, hrvj, if_neg h0]
        by_cases hz : st.j2len (j - 1) = 0
        · rw [hz]
          omega
        · have := hd5 _ hz
          omega
    have hkvi : ∀ j : ℕ,
        (if j = 0 then 0 else st.j2len (j - 1)) + 1 ≤ visRun s i := by
      intro j
      by_cases h0 : j = 0
      · rw [if_pos h0, hrvi]
        omega
      · rw [if_neg h0]
        by_cases hz : st.j2len (j - 1) = 0
        · rw [hz, hrvi]
          omega
        · obtain ⟨hb, hi1⟩ := hd6 _ hz
          rw [hrvi, if_neg (by omega)]
          omega
    -- phase 1: columns left of the diagonal never beat the current best
    have hprehyp : ∀ j ∈ (List.range i).filter
        (fun j => decide (s.getD j ' ' = s.getD i ' ')),
        (if j = 0 then 0 else st.j2len (j - 1)) + 1 ≤ st.bestsize ∧
        (if j = 0 then 0 else st.j2len (j - 1)) + 1 ≤ visRun s j ∧
        (if j = 0 then 0 else st.j2len (j - 1)) + 1 ≤ visRun s i := by
      intro j hj
      have hjlt : j < i := List.mem_range.mp (List.mem_of_mem_filter hj)
      have hchar0 := List.of_mem_filter hj
      have hchar : s.getD j ' ' = s.getD i ' ' := of_decide_eq_true hchar0
      have hjL : j < s.length := by omega
      have hk1 := hkvj j hchar hjL
      exact ⟨le_trans hk1 (hd4 j hjlt), hk1, hkvi j⟩
    have hpre := fold_noupdate st.j2len i st.bestsize (visRun s i) (visRun s)
      ((List.range i).filter (fun j => decide (s.getD j ' ' = s.getD i ' ')))
      ⟨fun _ => 0, st.besti, st.bestj, st.bestsize⟩ hprehyp rfl
    obtain ⟨p1, p2, p3, p4⟩ := hpre
    set st1 := (((List.range i).filter
        (fun j => decide (s.getD j ' ' = s.getD i ' '))).foldl
        (flmInner st.j2len i)
        ⟨fun _ => 0, st.besti, st.bestj, st.bestsize⟩) with hst1
    have p1' : st1.besti = st.besti := p1
    have p2' : st1.bestj = st.bestj := p2
    -- phase 2: the diagonal column
    have hkdiag : (if i = 0 then 0 else st.j2len (i - 1)) + 1 = visRun s i := by
      by_cases h0 : i = 0
      · rw [if_pos h0, hrvi, if_pos h0]
      · rw [if_neg h0, hd7 (by omega), hrvi, if_neg h0]
    set st2 := flmInner st.j2len i st1 i with hst2
    have hfacts : st2.besti = st2.bestj ∧ st2.besti + st2.bestsize ≤ i + 1 ∧
        st.bestsize ≤ st2.bestsize ∧ visRun s i ≤ st2.bestsize ∧
        (∀ x, st2.j2len x = if x = i then visRun s i else st1.j2len x) := by
      rw [hst2]
      unfold flmInner
      by_cases hup : st1.bestsize < (if i = 0 then 0 else st.j2len (i - 1)) + 1
      · rw [if_pos hup]
        have hkle : (if i = 0 then 0 else st.j2len (i - 1)) + 1 ≤ i + 1 := by
          have := visRun_le s i
          omega
        refine ⟨rfl, by dsimp only; omega, by dsimp only; omega,
          by dsimp only; omega, ?_⟩
        intro x
        dsimp only
        rw [hkdiag]
      · rw [if_neg hup]
        refine ⟨?_, ?_, ?_, ?_, ?_⟩
        · show st1.besti = st1.bestj
          rw [p1', p2']
          exact hd1
        · show st1.besti + st1.bestsize ≤ i + 1
          rw [p1', p3]
          omega
        · show st.bestsize ≤ st1.bestsize
          rw [p3]
        · show visRun s i ≤ st1.bestsize
          rw [p3] at hup ⊢
          omega
        · intro x
          dsimp only
          rw [hkdiag]
    obtain ⟨hf1, hf2, hf3, hf4, hfj⟩ := hfacts
    -- phase 3: columns right of the diagonal never beat the enlarged best
    have hposthyp : ∀ j ∈ (List.range' (i + 1) (s.length - (i + 1))).filter
        (fun j => decide (s.getD j ' ' = s.getD i ' ')),
        (if j = 0 then 0 else st.j2len (j - 1)) + 1 ≤ st2.bestsize ∧
        (if j = 0 then 0 else st.j2len (j - 1)) + 1 ≤ visRun s j ∧
        (if j = 0 then 0 else st.j2len (j - 1)) + 1 ≤ visRun s i := by
      intro j hj
      have hjmem := List.mem_range'_1.mp (List.mem_of_mem_filter hj)
      have hchar0 := List.of_mem_filter hj
      have hchar : s.getD j ' ' = s.getD i ' ' := of_decide_eq_true hchar0
      have hjL : j < s.length := by omega
      have hk1 := hkvj j hchar hjL
      exact ⟨le_trans (hkvi j) hf4, hk1, hkvi j⟩
    have hpost := fold_noupdate st.j2len i st2.bestsize (visRun s i) (visRun s)
      ((List.range' (i + 1) (s.length - (i + 1))).filter
        (fun j => decide (s.getD j ' ' = s.getD i ' ')))
      st2 hposthyp rfl
    obtain ⟨q1, q2, q3, q4⟩ := hpost
    refine ⟨?_, ?_, ?_, ?_, ?_, ?_⟩
    · rw [q1, q2]
      exact hf1
    · rw [q1, q3]
      exact hf2
    · intro x hx
      rw [q3]
      by_cases hxi : x < i
      · exact le_trans (hd4 x hxi) hf3
      · have hxe : x = i := by omega
        rw [hxe]
        exact hf4
    · intro x hx
      obtain ⟨c1, c2⟩ := q4 x
      rcases c1 with hc | hc
      · rw [hc, hfj x] at hx ⊢
        by_cases hxi : x = i
        · subst hxi
          rw [if_pos rfl] at hx ⊢
        · rw [if_neg hxi] at hx ⊢
          obtain ⟨d1, d2⟩ := p4 x
          rcases d1 with hd | hd
          · exact absurd (hd.trans rfl) hx
          · exact hd.1
      · exact hc.1
    · intro x hx
      refine ⟨?_, by omega⟩
      rw [Nat.add_sub_cancel]
      obtain ⟨c1, c2⟩ := q4 x
      rcases c1 with hc | hc
      · rw [hc, hfj x] at hx ⊢
        by_cases hxi : x = i
        · subst hxi
          rw [if_pos rfl] at hx ⊢
        · rw [if_neg hxi] at hx ⊢
          obtain ⟨d1, d2⟩ := p4 x
          rcases d1 with hd | hd
          · exact absurd (hd.trans rfl) hx
          · exact hd.2
      · exact hc.2
    · intro _
      rw [Nat.add_sub_cancel]
      have hni : i ∉ (List.range' (i + 1) (s.length - (i + 1))).filter
          (fun j => decide (s.getD j ' ' = s.getD i ' ')) := by
        intro hmem
        have := (List.mem_range'_1.mp (List.mem_of_mem_filter hmem)).1
        omega
      obtain ⟨c1, c2⟩ := q4 i
      rw [c2 hni, hfj i, if_pos rfl]

theorem dp_selfInv (s : Str) :
    ∀ (n i : ℕ) (st : FlmState), SelfInv s i st → i + n ≤ s.length →
      SelfInv s (i + n) ((List.range' i n).foldl
        (flmRow s (b2jMap s) 0 s.length) st) := by
  intro n
  induction n with
  | zero => intro i st h _; exact h
  | succ m ih =>
    intro i st h hle
    rw [List.range'_succ, List.foldl_cons]
    have h2 := ih (i + 1) (flmRow s (b2jMap s) 0 s.length st i)
      (flmRow_selfInv s i (by omega) st h) (by omega)
    have he : i + 1 + m = i + (m + 1) := by omega
    rw [he] at h2
    exact h2

theorem flm_self (s : Str) :
    find_longest_match s s (b2jMap s) (fun _ => false) 0 s.length 0 s.length
      = (0, 0, s.length) := by
  have hdp := dp_selfInv s s.length 0 ⟨fun _ => 0, 0, 0, 0⟩
    ⟨rfl, by dsimp only; omega, fun x hx => absurd hx (by omega),
      fun x hx => absurd rfl hx, fun x hx => absurd rfl hx, by omega⟩
    (by omega)
  rw [Nat.zero_add] at hdp
  unfold find_longest_match
  dsimp only
  set st := List.foldl (flmRow s (b2jMap s) 0 s.length)
    ⟨fun _ => 0, 0, 0, 0⟩ (List.range' 0 (s.length - 0)) with hstdef
  have hst : SelfInv s s.length st := by
    rw [hstdef, Nat.sub_zero]
    exact hdp
  obtain ⟨hd1, hd2, _, _, _, _⟩ := hst
  rw [← hd1]
  rw [extLeft_diag s (fun c => !false) (fun c => rfl) st.besti st.bestsize]
  dsimp only
  rw [extRight_full s (fun c => !false) (fun c => rfl) s.length
    (st.bestsize + st.besti) (by omega) (by omega)]
  rw [extLeft_stuck s s 0 0 _ 0 0 s.length (le_refl 0)]
  dsimp only
  rw [extRight_stuck s s s.length s.length _ 0 0 s.length (by omega)]

theorem matchedTotal_self (s : Str) : matchedTotal s s = s.length := by
  unfold matchedTotal
  by_cases hL : s.length = 0
  · rw [hL]
    rw [matchedAux]
    rw [flm_degenerate s s _ _ 0 0 0 0 (le_refl 0)]
    norm_num
  · have hf : s.length + s.length + 1 = (s.length + s.length) + 1 := rfl
    rw [hf, matchedAux]
    rw [flm_self s]
    dsimp only
    rw [if_neg hL]
    rw [matchedAux_degenerate s s _ _ 0 0 0 0 (le_refl 0) (s.length + s.length)]
    rw [matchedAux_degenerate s s _ _ (0 + s.length) s.length (0 + s.length)
      s.length (by omega) (s.length + s.length)]
    omega

theorem seqMatcherScore_self (s : Str) (hne : s ≠ []) :
    seqMatcherScore s s = 1 := by
  unfold seqMatcherScore
  have hpos : 0 < s.length := List.length_pos.mpr hne
  rw [if_neg (by omega), matchedTotal_self s]
  have hq : ((s.length : ℚ)) ≠ 0 := by
    exact_mod_cast Nat.pos_iff_ne_zero.mp hpos
  field_simp
  ring

theorem toNat_ofNat_valid (n : ℕ) (h : n.isValidChar) :
    (Char.ofNat n).toNat = n := by
  unfold Char.ofNat
  rw [dif_pos h]
  rfl

theorem toLower_idem (c : Char) : c.toLower.toLower = c.toLower := by
  by_cases h : 65 ≤ c.toNat ∧ c.toNat ≤ 90
  · have e : c.toLower = Char.ofNat (c.toNat + 32) := by
      unfold Char.toLower
      rw [if_pos]
      exact ⟨h.1, h.2⟩
    rw [e]
    have hv : (c.toNat + 32).isValidChar := by
      left
      omega
    have h5 : (Char.ofNat (c.toNat + 32)).toNat = c.toNat + 32 :=
      toNat_ofNat_valid _ hv
    unfold Char.toLower
    rw [if_neg]
    intro hc
    omega
  · have e : c.toLower = c := by
      unfold Char.toLower
      rw [if_neg h]
    rw [e, e]

theorem pyLower_idem (s : Str) : pyLower (pyLower s) = pyLower s := by
  unfold pyLower
  rw [List.map_map]
  apply List.map_congr_left
  intro c _
  exact toLower_idem c

/-- C6 (amended): both `_calculate_similarity` functions return a value in
[0,1] for all inputs; the Search Engine's version is case-insensitive
(lower-casing either input does not change the result); and
`similarity(a,a) = 1` for every non-empty `a` — the `find_longest_match`
extension loops compare raw characters and ignore autojunk, so
self-similarity survives popular-character purging.  Symmetry and the
Analytics version's case-insensitivity are refuted by the
counterexample. -/
theorem c6_similarity_properties (a b : Str) :
    (0 ≤ analytics_calculate_similarity a b ∧ analytics_calculate_similarity a b ≤ 1) ∧
    (0 ≤ search_calculate_similarity a b ∧ search_calculate_similarity a b ≤ 1) ∧
    search_calculate_similarity (pyLower a) b = search_calculate_similarity a b ∧
    search_calculate_similarity a (pyLower b) = search_calculate_similarity a b ∧
    (a ≠ [] →
      analytics_calculate_similarity a a = 1 ∧ search_calculate_similarity a a = 1) := by
  refine ⟨?_, ?_, ?_, ?_, ?_⟩
  · exact seqMatcherScore_bounds a b
  · exact seqMatcherScore_bounds (pyLower a) (pyLower b)
  · unfold search_calculate_similarity
    rw [pyLower_idem]
  · unfold search_calculate_similarity
    rw [pyLower_idem]
  · intro h1
    constructor
    · exact seqMatcherScore_self a h1
    · apply seqMatcherScore_self
      intro hc
      exact h1 (List.map_eq_nil.mp hc)

/-- Witness for C6 (amended) at a = "ab", b = "B". -/
theorem c6_similarity_properties_witness :
    (['a','b'] : Str) ≠ [] ∧
    analytics_calculate_similarity ['a','b'] ['a','b'] = 1 ∧
    search_calculate_similarity ['a','b'] ['a','b'] = 1 :=
  ⟨by decide,
    ((c6_similarity_properties ['a','b'] ['B']).2.2.2.2 (by decide)).1,
    ((c6_similarity_properties ['a','b'] ['B']).2.2.2.2 (by decide)).2⟩

/-- Counterexample to C6: neither similarity function is symmetric
(`ratio("tide","diet") = 0.25` but `ratio("diet","tide") = 0.5` — the
Ratcliff/Obershelp recursion is order-dependent), and the Analytics
version is case-sensitive (`similarity("A","a") = 0` yet
`similarity("a","a") = 1`). -/
theorem c6_similarity_counterexample :
    analytics_calculate_similarity ['t','i','d','e'] ['d','i','e','t'] = 1/4 ∧
    analytics_calculate_similarity ['d','i','e','t'] ['t','i','d','e'] = 1/2 ∧
    search_calculate_similarity ['t','i','d','e'] ['d','i','e','t'] = 1/4 ∧
    search_calculate_similarity ['d','i','e','t'] ['t','i','d','e'] = 1/2 ∧
    analytics_calculate_similarity ['A'] ['a'] = 0 ∧
    analytics_calculate_similarity ['a'] ['a'] = 1 :=
  ⟨by decide, by decide, by decide, by decide, by decide, by decide⟩
